import Mathlib

set_option autoImplicit false

/-!
Shallow embedding of the export engine of the `Chuxel/lifecycle` repository:
the `VolumeCache` (cache/volume_cache.go) and the `Exporter` (exporter.go).

Filesystem directories are modelled as association lists from file name to
file contents; a directory that does not exist is `none`.  Mutating cache
operations are state transformers on a `VolumeCache` record; fallible steps
whose failure depends on the outside world (a rename refused by the OS, a
stream that breaks mid-copy) take explicit failure-injection arguments.
-/

namespace Lifecycle

/-- A directory: file name to file contents.  Later entries for the same
name are shadowed by `Dir.insert`, which removes the old binding. -/
abbrev Dir := List (String × String)

/-- Look up a file in a directory. -/
def Dir.lookup (d : Dir) (k : String) : Option String :=
  match d with
  | [] => none
  | (k2, v) :: rest => if k2 = k then some v else Dir.lookup rest k

/-- Create or truncate-overwrite a file in a directory. -/
def Dir.insert (d : Dir) (k v : String) : Dir :=
  (k, v) :: d.filter (fun p => p.1 ≠ k)

/-- Render a digest as a cache file name: Go `diffIDPath` joined to a base
directory; on Windows the `sha256:` part is dropped to avoid colons. -/
def diffIDPath (windows : Bool) (diffID : String) : String :=
  (if windows then
    (if diffID.startsWith "sha256:" then diffID.drop 7 else diffID)
   else diffID) ++ ".tar"

/-- The name of the cache metadata file (`MetadataLabel` of the cache
package; value per spec section 4.1). -/
def MetadataLabel : String := "io.buildpacks.lifecycle.cache.metadata"

/-- Errors a cache operation can report. -/
inductive CacheErr where
  /-- `errCacheCommitted`: mutation after `Commit`. -/
  | cacheCommitted
  /-- Any wrapped I/O error; the payload is the wrap context. -/
  | ioErr (msg : String)
  deriving DecidableEq, Repr

/-- The cache root: the `staging/`, `committed/` and `committed-backup/`
directories, each possibly absent. -/
structure CacheFS where
  stagingDir : Option Dir
  committedDir : Option Dir
  backupDir : Option Dir
  deriving DecidableEq, Repr

/-- Go `VolumeCache`: the committed flag plus the on-disk state. -/
structure VolumeCache where
  committed : Bool
  fs : CacheFS
  deriving DecidableEq, Repr

/-- Go `NewVolumeCache`: requires the root to exist, recreates `staging/`
empty, removes any stale backup, creates `committed/` if absent. -/
def NewVolumeCache (dirExists : Bool) (init : CacheFS) : Except CacheErr VolumeCache :=
  if !dirExists then .error (.ioErr "stat cache directory") else
  .ok { committed := false
        fs := { stagingDir := some []
                committedDir := some (init.committedDir.getD [])
                backupDir := none } }

/-- Replace the staging directory of a cache. -/
def VolumeCache.setStaging (c : VolumeCache) (d : Dir) : VolumeCache :=
  { c with fs := { c.fs with stagingDir := some d } }

/-- Go `SetMetadata`: JSON-encode the metadata record into
`staging/io.buildpacks.lifecycle.cache.metadata`.  The encoded document is
passed in (`encoding/json` is outside the model). -/
def VolumeCache.SetMetadata (c : VolumeCache) (encoded : String) :
    Except CacheErr Unit × VolumeCache :=
  if c.committed then (.error .cacheCommitted, c) else
  match c.fs.stagingDir with
  | none => (.error (.ioErr "creating metadata file"), c)
  | some d => (.ok (), c.setStaging (d.insert MetadataLabel encoded))

/-- Go `AddLayerFile`: copy a tarball into `staging/<renderedDigest>.tar`,
skipping the copy when the staged file already exists.  `src` is the
contents of the source tar (`none`: the source cannot be opened). -/
def VolumeCache.AddLayerFile (c : VolumeCache) (windows : Bool)
    (src : Option String) (diffID : String) : Except CacheErr Unit × VolumeCache :=
  if c.committed then (.error .cacheCommitted, c) else
  let name := diffIDPath windows diffID
  match c.fs.stagingDir with
  | none => (.error (.ioErr ("caching layer (" ++ diffID ++ ")")), c)
  | some d =>
    match d.lookup name with
    | some _ => (.ok (), c)
    | none =>
      match src with
      | none => (.error (.ioErr ("caching layer (" ++ diffID ++ ")")), c)
      | some content => (.ok (), c.setStaging (d.insert name content))

/-- Go `AddLayer`: create `staging/<renderedDigest>.tar` and drain the stream
into it.  `content` is what the copy managed to write; `copyOk = false`
injects an `io.Copy` failure, after which the partial file remains. -/
def VolumeCache.AddLayer (c : VolumeCache) (windows : Bool)
    (content : String) (copyOk : Bool) (diffID : String) :
    Except CacheErr Unit × VolumeCache :=
  if c.committed then (.error .cacheCommitted, c) else
  match c.fs.stagingDir with
  | none => (.error (.ioErr "create layer file in cache"), c)
  | some d =>
    let c2 := c.setStaging (d.insert (diffIDPath windows diffID) content)
    if copyOk then (.ok (), c2)
    else (.error (.ioErr "copying layer to tar file"), c2)

/-- Go `ReuseLayer`: hard-link `committed/<name>.tar` to `staging/<name>.tar`;
a link error that is "already exists" is tolerated. -/
def VolumeCache.ReuseLayer (c : VolumeCache) (windows : Bool) (diffID : String) :
    Except CacheErr Unit × VolumeCache :=
  if c.committed then (.error .cacheCommitted, c) else
  let name := diffIDPath windows diffID
  match c.fs.committedDir with
  | none => (.error (.ioErr ("reusing layer (" ++ diffID ++ ")")), c)
  | some cd =>
    match cd.lookup name with
    | none => (.error (.ioErr ("reusing layer (" ++ diffID ++ ")")), c)
    | some content =>
      match c.fs.stagingDir with
      | none => (.error (.ioErr ("reusing layer (" ++ diffID ++ ")")), c)
      | some d =>
        match d.lookup name with
        | some _ => (.ok (), c)
        | none => (.ok (), c.setStaging (d.insert name content))

/-- Go `RetrieveMetadata`: open `committed/<MetadataLabel>`; absent gives an
empty record with no error, a decode failure likewise; only another open
error surfaces.  `openIOError` injects such an error; `dec` is the JSON
decoder for the metadata document (empty record: `""`). -/
def VolumeCache.RetrieveMetadata (c : VolumeCache) (openIOError : Bool)
    (dec : String → Option String) : Except CacheErr String :=
  if openIOError then .error (.ioErr "opening metadata file") else
  match c.fs.committedDir with
  | none => .ok ""
  | some cd =>
    match cd.lookup MetadataLabel with
    | none => .ok ""
    | some content =>
      match dec content with
      | none => .ok ""
      | some m => .ok m

/-- Go `HasLayer`: a stat on the committed path. -/
def VolumeCache.HasLayer (c : VolumeCache) (windows : Bool) (diffID : String) : Bool :=
  ((c.fs.committedDir.getD []).lookup (diffIDPath windows diffID)).isSome

/-- Go `Commit`: the two-generation swap.  `failRename2` injects a failure of
the `staging/` to `committed/` rename; `failRollback` injects a failure of
the rollback rename.  The `defer os.RemoveAll(c.backupDir)` registered
after the first rename runs on every later return path. -/
def VolumeCache.Commit (c : VolumeCache) (failRename2 failRollback : Bool) :
    Except CacheErr Unit × VolumeCache :=
  if c.committed then (.error .cacheCommitted, c) else
  let c := { c with committed := true }
  match c.fs.committedDir with
  | none => (.error (.ioErr "backing up cache"), c)
  | some cd =>
    match c.fs.stagingDir, failRename2 with
    | some st, false =>
      -- staging renamed onto committed; the deferred removal clears the backup
      (.ok (), { c with fs := { stagingDir := none, committedDir := some st, backupDir := none } })
    | stg, _ =>
      -- the staging rename failed (injected, or staging/ is missing)
      if failRollback then
        -- rollback refused; the deferred removal still clears the backup
        (.error (.ioErr "rolling back cache"),
         { c with fs := { stagingDir := stg, committedDir := none, backupDir := none } })
      else
        (.error (.ioErr "committing cache"),
         { c with fs := { stagingDir := stg, committedDir := some cd, backupDir := none } })

/-- One mutating cache operation of a session. -/
inductive CacheOp where
  | setMetadata (encoded : String)
  | addLayerFile (src : Option String) (diffID : String)
  | addLayer (content : String) (copyOk : Bool) (diffID : String)
  | reuseLayer (diffID : String)
  deriving DecidableEq, Repr

/-- Apply one mutating operation, keeping the resulting state whether or
not the operation reported an error (as the Go caller would). -/
def applyOp (windows : Bool) (c : VolumeCache) (op : CacheOp) :
    Except CacheErr Unit × VolumeCache :=
  match op with
  | .setMetadata enc => c.SetMetadata enc
  | .addLayerFile src d => c.AddLayerFile windows src d
  | .addLayer content ok d => c.AddLayer windows content ok d
  | .reuseLayer d => c.ReuseLayer windows d

/-- Run a session of mutating operations. -/
def runOps (windows : Bool) (c : VolumeCache) (ops : List CacheOp) : VolumeCache :=
  ops.foldl (fun c op => (applyOp windows c op).2) c

/-- What one session operation leaves in `staging/`, written from the
spec's description of the mutation contract (mutations touch staging only;
a same-digest re-add or re-link is a no-op; a stream add truncates and
keeps what was copied).  Spec-side description, compared against the
embedded operations in claim C1. -/
def specStagedStep (windows : Bool) (committedGen : Dir) (acc : Dir) : CacheOp → Dir
  | .setMetadata enc => acc.insert MetadataLabel enc
  | .addLayerFile src d =>
    let name := diffIDPath windows d
    if (acc.lookup name).isSome then acc
    else
      match src with
      | none => acc
      | some content => acc.insert name content
  | .addLayer content _ d => acc.insert (diffIDPath windows d) content
  | .reuseLayer d =>
    let name := diffIDPath windows d
    if (acc.lookup name).isSome then acc
    else
      match committedGen.lookup name with
      | none => acc
      | some content => acc.insert name content

/-- The set of files successfully placed into `staging/` by a session, per
the spec (starting from staging contents `acc`). -/
def specPlacedFiles (windows : Bool) (committedGen : Dir) (acc : Dir) : List CacheOp → Dir
  | [] => acc
  | op :: rest =>
    specPlacedFiles windows committedGen (specStagedStep windows committedGen acc op) rest

/-! ## Exporter model (exporter.go) -/

/-- Modelled from the spec: platform and buildpack API versions
(`api.Version`, not under src/) are `major.minor` pairs compared
lexicographically (0.4, 0.5, 0.6, 0.7 in the spec's glossary). -/
structure APIVersion where
  major : Nat
  minor : Nat
  deriving DecidableEq, Repr

def APIVersion.AtLeast (v target : APIVersion) : Bool :=
  Nat.blt target.major v.major ||
    (target.major == v.major && Nat.ble target.minor v.minor)

def APIVersion.LessThan (v target : APIVersion) : Bool :=
  !(v.AtLeast target)

/-- Render the version as Go `Version.String()` does for `major.minor`. -/
def APIVersion.str (v : APIVersion) : String :=
  toString v.major ++ "." ++ toString v.minor

/-- Modelled from the spec: `launch.LauncherPath` (launch package, not
under src/); spec scenario 1 fixes the value. -/
def LauncherPath : String := "/cnb/lifecycle/launcher"

/-- Modelled from the spec: `launch.ProcessDir`; spec scenario 7 fixes
the value through `ProcessPath`. -/
def ProcessDir : String := "/cnb/process"

/-- Modelled from the spec: `launch.LifecycleDir`. -/
def LifecycleDir : String := "/cnb/lifecycle"

/-- Modelled from the spec: `launch.ProcessPath(type)` is the process
symlink `<processDir>/<type>`. -/
def ProcessPath (t : String) : String := ProcessDir ++ "/" ++ t

/-- Go `launch.Process` (the field the exporter uses: its type name). -/
structure Process where
  typ : String
  deriving DecidableEq, Repr

/-- Go `launch.Metadata`. -/
structure LaunchMetadata where
  Processes : List Process
  deriving DecidableEq, Repr

/-- Modelled from the spec: `launch.Metadata.FindProcessType` finds the
process with the given type name (launch package, not under src/). -/
def LaunchMetadata.FindProcessType (m : LaunchMetadata) (k : String) : Option Process :=
  m.Processes.find? (fun p => p.typ == k)

/-- Go `layers.Layer`: `{ID, TarPath, Digest}`. -/
structure Layer where
  ID : String
  TarPath : String
  Digest : String
  deriving DecidableEq, Repr

instance : Inhabited Layer := ⟨⟨"", "", ""⟩⟩

/-- One call issued to the working image (the `imgutil.Image` collaborator). -/
inductive ImgCall where
  | reuseLayer (sha : String)
  | addLayerWithDiffID (tarPath sha : String)
  | setLabel (key value : String)
  | setEnv (key value : String)
  | setWorkingDir (dir : String)
  | setEntrypoint (ep : String)
  | setCmd
  deriving DecidableEq, Repr

/-- Whether a call is one of the two layer calls of claim C4. -/
def isLayerCall : ImgCall → Bool
  | .reuseLayer _ => true
  | .addLayerWithDiffID _ _ => true
  | _ => false

/-- The working image collaborator: an oracle deciding which calls the
backend refuses, plus the results of its two query operations. -/
structure WorkingImage where
  callErr : ImgCall → Option String
  topLayer : Except String String
  envPATH : Except String String

/-- Go `layers.Slice` (opaque to the exporter: passed to the factory). -/
structure Slice where
  paths : List String
  deriving DecidableEq, Repr

/-- The `LayerFactory` collaborator (consumed via an interface). -/
structure LayerFactory where
  DirLayer : String → String → Except String Layer
  LauncherLayer : String → Except String Layer
  ProcessTypesLayer : LaunchMetadata → Except String Layer
  SliceLayers : String → List Slice → Except String (List Layer)

/-- Go `buildpack.GroupBuildpack` (the fields the exporter uses). -/
structure GroupBuildpack where
  ID : String
  Version : String
  API : APIVersion
  deriving DecidableEq, Repr

/-- Go `dataformat.BuildpackLayerMetadata`: one layer's metadata entry. -/
structure BuildpackLayerMetadata where
  SHA : String
  Cache : Bool
  Launch : Bool
  Build : Bool
  deriving DecidableEq, Repr

instance : Inhabited BuildpackLayerMetadata := ⟨⟨"", false, false, false⟩⟩

/-- Go `dataformat.BuildpackLayersMetadata`. -/
structure BuildpackLayersMetadata where
  ID : String
  Version : String
  Layers : List (String × BuildpackLayerMetadata)
  Store : String
  deriving DecidableEq, Repr

/-- Go `dataformat.LayerMetadata`. -/
structure LayerMetadata where
  SHA : String
  deriving DecidableEq, Repr

/-- Go `dataformat.RunImageMetadata`. -/
structure RunImageMetadata where
  TopLayer : String
  Reference : String
  deriving DecidableEq, Repr

/-- Go `dataformat.LayersMetadata` (the aggregated image label document). -/
structure LayersMetadata where
  Buildpacks : List BuildpackLayersMetadata
  App : List LayerMetadata
  Launcher : LayerMetadata
  Config : LayerMetadata
  ProcessTypes : LayerMetadata
  RunImage : RunImageMetadata
  Stack : String
  deriving DecidableEq, Repr

/-- Modelled from the spec: `MetadataForBuildpack(id)` returns the
buildpack entry or an empty one; missing is not an error (dataformat
package, not under src/). -/
def LayersMetadata.MetadataForBuildpack (m : LayersMetadata) (id : String) :
    BuildpackLayersMetadata :=
  (m.Buildpacks.find? (fun b => b.ID == id)).getD ⟨"", "", [], ""⟩

/-- Go `dataformat.BuildMetadata` (the fields the exporter uses). -/
structure BuildMetadata where
  Processes : List Process
  Slices : List Slice
  BuildpackDefaultProcessType : String
  Labels : List (String × String)
  deriving DecidableEq, Repr

/-- Modelled from the spec: `BuildMetadata.ToLaunchMD` projects the
processes into launch metadata (dataformat package, not under src/). -/
def BuildMetadata.ToLaunchMD (b : BuildMetadata) : LaunchMetadata := ⟨b.Processes⟩

/-- Modelled from the spec: one entry of a buildpack layers directory as
`readBuildpackLayersDir` (layers.go, not under src/) presents it — the
layer name (filename stem), its classifications, whether a contents
directory exists, and the result of reading its `<name>.toml`. -/
structure FsLayer where
  name : String
  launch : Bool
  malformed : Bool
  hasLocalContents : Bool
  readErr : Bool
  md : BuildpackLayerMetadata
  path : String
  deriving DecidableEq, Repr

/-- Modelled from the spec: layer identifiers are `<bpID>:<layerName>`. -/
def layerIdent (bpID : String) (l : FsLayer) : String := bpID ++ ":" ++ l.name

/-- Modelled from the spec: the result of `readBuildpackLayersDir`. -/
structure BpLayersDir where
  layers : List FsLayer
  store : String
  deriving DecidableEq, Repr

def insertByName (l : FsLayer) : List FsLayer → List FsLayer
  | [] => [l]
  | x :: xs => if l.name ≤ x.name then l :: x :: xs else x :: insertByName l xs

def sortByName : List FsLayer → List FsLayer
  | [] => []
  | x :: xs => insertByName x (sortByName xs)

/-- Modelled from the spec: `findLayers(forLaunch)` returns the
launch-classified layers in filename sort order. -/
def BpLayersDir.findLaunchLayers (d : BpLayersDir) : List FsLayer :=
  sortByName (d.layers.filter (fun l => l.launch))

/-- Modelled from the spec: `findLayers(forMalformed)`. -/
def BpLayersDir.findMalformedLayers (d : BpLayersDir) : List FsLayer :=
  sortByName (d.layers.filter (fun l => l.malformed))

/-- Go `Exporter` (exporter.go:43); the logger is a pure sink and is not
modelled. -/
structure Exporter where
  Buildpacks : List GroupBuildpack
  LayerFactory : LayerFactory
  PlatformAPI : APIVersion

def Exporter.supportsMulticallLauncher (e : Exporter) : Bool :=
  e.PlatformAPI.AtLeast ⟨0, 4⟩

def Exporter.supportsManifestSize (e : Exporter) : Bool :=
  e.PlatformAPI.AtLeast ⟨0, 6⟩

/-- Go `processTypeWarning` (exporter.go:439); the Go message quotes the
type name, quoting punctuation elided. -/
def processTypeWarning (launchMD : LaunchMetadata) (t : String) : String :=
  "default process type " ++ t ++ " not present in list [" ++
    String.intercalate " " (launchMD.Processes.map (fun p => p.typ)) ++ "]"

/-- Go `processTypeError` (exporter.go:435). -/
def processTypeError (launchMD : LaunchMetadata) (t : String) : String :=
  processTypeWarning launchMD t

/-- Go `Exporter.entrypoint` (exporter.go:376); the Go error message has an
apostrophe-free rendering here. -/
def Exporter.entrypoint (e : Exporter) (launchMD : LaunchMetadata)
    (userDefaultProcessType buildpackDefaultProcessType : String) :
    Except String String :=
  if !e.supportsMulticallLauncher then .ok LauncherPath
  else if userDefaultProcessType == "" && e.PlatformAPI.LessThan ⟨0, 6⟩ &&
      launchMD.Processes.length == 1 then
    .ok (ProcessPath (launchMD.Processes.headD ⟨""⟩).typ)
  else if userDefaultProcessType != "" then
    match launchMD.FindProcessType userDefaultProcessType with
    | none =>
      if e.PlatformAPI.LessThan ⟨0, 6⟩ then .ok LauncherPath
      else .error ("tried to set " ++ userDefaultProcessType ++
        " to default but it does not exist")
    | some defaultProcess => .ok (ProcessPath defaultProcess.typ)
  else if buildpackDefaultProcessType == "" then .ok LauncherPath
  else .ok (ProcessPath buildpackDefaultProcessType)

/-- Go `Exporter.addOrReuseLayer` (exporter.go:447): re-materialize the
layer through the factory, then reuse by digest string equality or add.
Returns the digest recorded into metadata and the image call issued. -/
def Exporter.addOrReuseLayer (e : Exporter) (img : WorkingImage)
    (layer : Layer) (previousSHA : String) : Except String (String × List ImgCall) :=
  match e.LayerFactory.DirLayer layer.ID layer.TarPath with
  | .error msg => .error ("creating layer " ++ layer.ID ++ ": " ++ msg)
  | .ok layer2 =>
    if layer2.Digest == previousSHA then
      match img.callErr (.reuseLayer previousSHA) with
      | some msg => .error msg
      | none => .ok (layer2.Digest, [.reuseLayer previousSHA])
    else
      match img.callErr (.addLayerWithDiffID layer2.TarPath layer2.Digest) with
      | some msg => .error msg
      | none => .ok (layer2.Digest, [.addLayerWithDiffID layer2.TarPath layer2.Digest])

/-- The body of the launch-layer loop of `Exporter.addBuildpackLayers`
(exporter.go:175-209): process one launch-classified layer. -/
def Exporter.processLaunchLayer (e : Exporter) (img : WorkingImage)
    (origMetadata : LayersMetadata) (bp : GroupBuildpack) (l : FsLayer) :
    Except String (BuildpackLayerMetadata × List ImgCall) :=
  if l.readErr then .error ("reading " ++ layerIdent bp.ID l ++ " metadata")
  else if l.hasLocalContents then
    match e.LayerFactory.DirLayer (layerIdent bp.ID l) l.path with
    | .error msg => .error ("creating layer: " ++ msg)
    | .ok layer =>
      match e.addOrReuseLayer img layer
        ((((origMetadata.MetadataForBuildpack bp.ID).Layers.lookup l.name).getD
            default).SHA) with
      | .error msg => .error msg
      | .ok (sha, calls) => .ok ({ l.md with SHA := sha }, calls)
  else
    if l.md.Cache then
      .error ("layer " ++ layerIdent bp.ID l ++ " is cache=true but has no contents")
    else
      match (origMetadata.MetadataForBuildpack bp.ID).Layers.lookup l.name with
      | none =>
        .error ("cannot reuse " ++ layerIdent bp.ID l ++
          ", previous image has no metadata for layer " ++ layerIdent bp.ID l)
      | some origLayerMetadata =>
        match img.callErr (.reuseLayer origLayerMetadata.SHA) with
        | some msg => .error ("reusing layer: " ++ layerIdent bp.ID l ++ ": " ++ msg)
        | none =>
          .ok ({ l.md with SHA := origLayerMetadata.SHA },
               [.reuseLayer origLayerMetadata.SHA])

/-- The launch-layer loop of `addBuildpackLayers` over one buildpack's
layers: the metadata map entries and the calls, in order. -/
def Exporter.processLaunchLayers (e : Exporter) (img : WorkingImage)
    (origMetadata : LayersMetadata) (bp : GroupBuildpack) :
    List FsLayer → Except String (List (String × BuildpackLayerMetadata) × List ImgCall)
  | [] => .ok ([], [])
  | l :: rest =>
    match e.processLaunchLayer img origMetadata bp l with
    | .error msg => .error msg
    | .ok (lmd, calls) =>
      match e.processLaunchLayers img origMetadata bp rest with
      | .error msg => .error msg
      | .ok (entries, calls2) => .ok ((l.name, lmd) :: entries, calls ++ calls2)

/-- Go `Exporter.addBuildpackLayers` (exporter.go:163): walk the buildpack
group in order; `readBpDir` is the oracle for `readBuildpackLayersDir`. -/
def Exporter.addBuildpackLayers (e : Exporter) (img : WorkingImage)
    (readBpDir : String → Except String BpLayersDir) (origMetadata : LayersMetadata) :
    List GroupBuildpack → Except String (List BuildpackLayersMetadata × List ImgCall)
  | [] => .ok ([], [])
  | bp :: rest =>
    match readBpDir bp.ID with
    | .error msg => .error ("reading layers for buildpack " ++ bp.ID ++ ": " ++ msg)
    | .ok bpDir =>
      match e.processLaunchLayers img origMetadata bp bpDir.findLaunchLayers with
      | .error msg => .error msg
      | .ok (entries, calls) =>
        if bpDir.findMalformedLayers.isEmpty then
          match e.addBuildpackLayers img readBpDir origMetadata rest with
          | .error msg => .error msg
          | .ok (bps, calls2) =>
            .ok ({ ID := bp.ID, Version := bp.Version, Layers := entries,
                   Store := bpDir.store } :: bps, calls ++ calls2)
        else
          .error ("failed to parse metadata for layers " ++
            String.intercalate " " (bpDir.findMalformedLayers.map (layerIdent bp.ID)))

/-- The slice loop of `Exporter.addAppLayers` (exporter.go:255-276). -/
def appSliceLoop (img : WorkingImage) (origApp : List LayerMetadata) :
    List Layer → Except String (List LayerMetadata × List ImgCall)
  | [] => .ok ([], [])
  | slice :: rest =>
    let found := origApp.any (fun previous => slice.Digest == previous.SHA)
    let call : ImgCall :=
      if found then .reuseLayer slice.Digest
      else .addLayerWithDiffID slice.TarPath slice.Digest
    match img.callErr call with
    | some msg => .error msg
    | none =>
      match appSliceLoop img origApp rest with
      | .error msg => .error msg
      | .ok (metas, calls) => .ok (⟨slice.Digest⟩ :: metas, call :: calls)

/-- Go `Exporter.addAppLayers` (exporter.go:247). -/
def Exporter.addAppLayers (e : Exporter) (img : WorkingImage)
    (appDir : String) (slices : List Slice) (origApp : List LayerMetadata) :
    Except String (List LayerMetadata × List ImgCall) :=
  match e.LayerFactory.SliceLayers appDir slices with
  | .error msg => .error ("creating app layers: " ++ msg)
  | .ok sliceLayers => appSliceLoop img origApp sliceLayers

/-- Go `Exporter.launcherConfig` (exporter.go:408): the process-types layer,
only with the multicall launcher and a nonempty process list. -/
def Exporter.launcherConfig (e : Exporter) (img : WorkingImage)
    (buildMD : BuildMetadata) (origProcessTypesSHA : String) :
    Except String (String × List ImgCall) :=
  if e.supportsMulticallLauncher then
    if buildMD.Processes.length != 0 then
      match e.LayerFactory.ProcessTypesLayer ⟨buildMD.Processes⟩ with
      | .error msg => .error ("creating layer: " ++ msg)
      | .ok processTypesLayer =>
        match e.addOrReuseLayer img processTypesLayer origProcessTypesSHA with
        | .error msg => .error ("exporting layer " ++ processTypesLayer.ID ++ ": " ++ msg)
        | .ok (sha, calls) => .ok (sha, calls)
    else .ok ("", [])
  else .ok ("", [])

/-- Go `Exporter.addLauncherLayers` (exporter.go:223): launcher layer,
config layer, then `launcherConfig`.  Returns the three recorded digests
and the calls. -/
def Exporter.addLauncherLayers (e : Exporter) (img : WorkingImage)
    (launcherConfigPath layersDir : String) (buildMD : BuildMetadata)
    (orig : LayersMetadata) :
    Except String ((String × String × String) × List ImgCall) :=
  match e.LayerFactory.LauncherLayer launcherConfigPath with
  | .error msg => .error ("creating launcher layers: " ++ msg)
  | .ok launcherLayer =>
    match e.addOrReuseLayer img launcherLayer orig.Launcher.SHA with
    | .error msg => .error ("exporting launcher configLayer: " ++ msg)
    | .ok (launcherSHA, calls1) =>
      match e.LayerFactory.DirLayer "config" (layersDir ++ "/config") with
      | .error msg => .error ("creating layer config: " ++ msg)
      | .ok configLayer =>
        match e.addOrReuseLayer img configLayer orig.Config.SHA with
        | .error msg => .error ("exporting config layer: " ++ msg)
        | .ok (configSHA, calls2) =>
          match e.launcherConfig img buildMD orig.ProcessTypes.SHA with
          | .error msg => .error msg
          | .ok (ptSHA, calls3) =>
            .ok ((launcherSHA, configSHA, ptSHA), calls1 ++ calls2 ++ calls3)

/-- The three fixed label keys (dataformat package; values per spec §4.6). -/
def LayerMetadataLabel : String := "io.buildpacks.lifecycle.metadata"

def BuildMetadataLabel : String := "io.buildpacks.build.metadata"

def ProjectMetadataLabel : String := "io.buildpacks.project.metadata"

/-- JSON serialization oracles for the label documents (`encoding/json`,
outside the model; the build document also carries the launcher metadata
the Go code injects just before marshalling). -/
structure Marshaller where
  layersMD : LayersMetadata → Except String String
  buildMD : BuildMetadata → Except String String
  projectMD : String → Except String String

def setLabelCall (img : WorkingImage) (key value : String) :
    Except String (List ImgCall) :=
  match img.callErr (.setLabel key value) with
  | some msg => .error msg
  | none => .ok [.setLabel key value]

def setBuildpackLabels (img : WorkingImage) :
    List (String × String) → Except String (List ImgCall)
  | [] => .ok []
  | (k, v) :: rest =>
    match setLabelCall img k v with
    | .error msg => .error ("set buildpack-provided label " ++ k ++ ": " ++ msg)
    | .ok calls =>
      match setBuildpackLabels img rest with
      | .error msg => .error msg
      | .ok calls2 => .ok (calls ++ calls2)

/-- Go `Exporter.setLabels` (exporter.go:288). -/
def Exporter.setLabels (e : Exporter) (img : WorkingImage) (mar : Marshaller)
    (meta : LayersMetadata) (buildMD : BuildMetadata) (projectMD : String) :
    Except String (List ImgCall) :=
  match mar.layersMD meta with
  | .error msg => .error ("marshall metadata: " ++ msg)
  | .ok data =>
  match setLabelCall img LayerMetadataLabel data with
  | .error msg => .error ("set app image metadata label: " ++ msg)
  | .ok c1 =>
  match mar.buildMD buildMD with
  | .error msg => .error ("parse build metadata: " ++ msg)
  | .ok buildJSON =>
  match setLabelCall img BuildMetadataLabel buildJSON with
  | .error msg => .error ("set build image metadata label: " ++ msg)
  | .ok c2 =>
  match mar.projectMD projectMD with
  | .error msg => .error ("parse project metadata: " ++ msg)
  | .ok projectJSON =>
  match setLabelCall img ProjectMetadataLabel projectJSON with
  | .error msg => .error ("set project metadata label: " ++ msg)
  | .ok c3 =>
  match setBuildpackLabels img buildMD.Labels with
  | .error msg => .error msg
  | .ok c4 => .ok (c1 ++ c2 ++ c3 ++ c4)

/-- Env var names (exporter.go:24). -/
def EnvLayersDir : String := "CNB_LAYERS_DIR"

def EnvAppDir : String := "CNB_APP_DIR"

def EnvPlatformAPI : String := "CNB_PLATFORM_API"

def EnvDeprecationMode : String := "CNB_DEPRECATION_MODE"

def EnvProcessType : String := "CNB_PROCESS_TYPE"

def DeprecationModeQuiet : String := "quiet"

def setEnvCall (img : WorkingImage) (key value : String) :
    Except String (List ImgCall) :=
  match img.callErr (.setEnv key value) with
  | some msg => .error msg
  | none => .ok [.setEnv key value]

/-- Go `Exporter.setEnv` (exporter.go:329); the path-list separator is the
POSIX colon.  Two of the Go wrap messages cite `EnvAppDir` for other
variables; that slip is kept. -/
def Exporter.setEnv (e : Exporter) (img : WorkingImage)
    (layersDir appDir defaultProcessType : String) (launchMD : LaunchMetadata) :
    Except String (List ImgCall) :=
  match setEnvCall img EnvLayersDir layersDir with
  | .error msg => .error ("set app image env " ++ EnvLayersDir ++ ": " ++ msg)
  | .ok c1 =>
  match setEnvCall img EnvAppDir appDir with
  | .error msg => .error ("set app image env " ++ EnvAppDir ++ ": " ++ msg)
  | .ok c2 =>
  match setEnvCall img EnvPlatformAPI e.PlatformAPI.str with
  | .error msg => .error ("set app image env " ++ EnvAppDir ++ ": " ++ msg)
  | .ok c3 =>
  match setEnvCall img EnvDeprecationMode DeprecationModeQuiet with
  | .error msg => .error ("set app image env " ++ EnvAppDir ++ ": " ++ msg)
  | .ok c4 =>
  if e.supportsMulticallLauncher then
    match img.envPATH with
    | .error msg => .error ("failed to get PATH from app image: " ++ msg)
    | .ok path =>
      match setEnvCall img "PATH" (ProcessDir ++ ":" ++ LifecycleDir ++ ":" ++ path) with
      | .error msg => .error ("set app image env PATH: " ++ msg)
      | .ok c5 => .ok (c1 ++ c2 ++ c3 ++ c4 ++ c5)
  else if defaultProcessType != "" then
    match launchMD.FindProcessType defaultProcessType with
    | none => .error (processTypeError launchMD defaultProcessType)
    | some _ =>
      match setEnvCall img EnvProcessType defaultProcessType with
      | .error msg => .error ("set app image env " ++ EnvProcessType ++ ": " ++ msg)
      | .ok c5 => .ok (c1 ++ c2 ++ c3 ++ c4 ++ c5)
  else .ok (c1 ++ c2 ++ c3 ++ c4)

/-- A per-buildpack `build.toml` read: a missing file is tolerated. -/
inductive TomlRead (α : Type) where
  | ok (a : α)
  | notExist
  | readFailed (msg : String)

/-- A BOM entry annotated with its owning buildpack. -/
structure BOMEntry where
  data : String
  bpID : String
  bpVersion : String
  deriving DecidableEq, Repr

/-- Modelled from the spec: `buildpack.WithBuildpack` annotates BOM
entries with the owning buildpack (buildpack package, not under src/). -/
def WithBuildpack (bp : GroupBuildpack) (bom : List String) : List BOMEntry :=
  bom.map (fun b => ⟨b, bp.ID, bp.Version⟩)

/-- Go `dataformat.BuildReport`. -/
structure BuildReport where
  BOM : List BOMEntry
  deriving DecidableEq, Repr

/-- The buildpack loop of `Exporter.makeBuildReport` (exporter.go:466). -/
def makeBuildReportLoop (readBuildToml : String → TomlRead (List String)) :
    List GroupBuildpack → Except String (List BOMEntry)
  | [] => .ok []
  | bp :: rest =>
    if bp.API.LessThan ⟨0, 5⟩ then makeBuildReportLoop readBuildToml rest
    else
      match readBuildToml bp.ID with
      | .readFailed msg => .error msg
      | .notExist =>
        match makeBuildReportLoop readBuildToml rest with
        | .error msg => .error msg
        | .ok out => .ok (WithBuildpack bp [] ++ out)
      | .ok bom =>
        match makeBuildReportLoop readBuildToml rest with
        | .error msg => .error msg
        | .ok out => .ok (WithBuildpack bp bom ++ out)

/-- Go `Exporter.makeBuildReport` (exporter.go:462); `readBuildToml` is the
oracle for `toml.DecodeFile` of `<layersDir>/<escapedID>/build.toml`. -/
def Exporter.makeBuildReport (e : Exporter)
    (readBuildToml : String → TomlRead (List String)) :
    Except String BuildReport :=
  if e.PlatformAPI.LessThan ⟨0, 5⟩ then .ok ⟨[]⟩
  else
    match makeBuildReportLoop readBuildToml e.Buildpacks with
    | .error msg => .error msg
    | .ok out => .ok ⟨out⟩

/-- The image identifiers and manifest size that `saveImage` (save.go,
not under src/) reports. -/
structure ImageReport where
  ManifestSize : Nat
  ImageID : String
  deriving DecidableEq, Repr

/-- Go `dataformat.ExportReport`. -/
structure ExportReport where
  Build : BuildReport
  Image : ImageReport
  deriving DecidableEq, Repr

/-- Go `ExportOptions` (exporter.go:63); the two metadata documents the Go
code holds as structures stay opaque strings where the exporter only
forwards them. -/
structure ExportOptions where
  LayersDir : String
  AppDir : String
  RunImageRef : String
  OrigMetadata : LayersMetadata
  LauncherConfigPath : String
  Stack : String
  Project : String
  DefaultProcessType : String

/-- The outside world of one `Export` call: results of the file reads,
serializations and the final save, supplied as oracles. -/
structure ExportWorld where
  absOk : Bool
  buildMD : Except String BuildMetadata
  readBpDir : String → Except String BpLayersDir
  mar : Marshaller
  readBuildToml : String → TomlRead (List String)
  saveResult : Except String ImageReport

/-- Go `Exporter.Export` (exporter.go:76): the full orchestration, returning
the report and the ordered list of calls issued to the working image. -/
def Exporter.Export (e : Exporter) (img : WorkingImage) (world : ExportWorld)
    (opts : ExportOptions) : Except String (ExportReport × List ImgCall) :=
  if !world.absOk then .error "layers dir absolute path"
  else
  match img.topLayer with
  | .error msg => .error ("get run image top layer SHA: " ++ msg)
  | .ok top =>
  match world.buildMD with
  | .error msg => .error ("read build metadata: " ++ msg)
  | .ok buildMD =>
  match e.addBuildpackLayers img world.readBpDir opts.OrigMetadata e.Buildpacks with
  | .error msg => .error msg
  | .ok (bpsMD, bpCalls) =>
  match e.addAppLayers img opts.AppDir buildMD.Slices opts.OrigMetadata.App with
  | .error msg => .error ("exporting app layers: " ++ msg)
  | .ok (appMD, appCalls) =>
  match e.addLauncherLayers img opts.LauncherConfigPath opts.LayersDir buildMD
      opts.OrigMetadata with
  | .error msg => .error msg
  | .ok ((launcherSHA, configSHA, ptSHA), launcherCalls) =>
  match e.setLabels img world.mar
      { Buildpacks := bpsMD, App := appMD, Launcher := ⟨launcherSHA⟩,
        Config := ⟨configSHA⟩, ProcessTypes := ⟨ptSHA⟩,
        RunImage := ⟨top, opts.RunImageRef⟩, Stack := opts.Stack }
      buildMD opts.Project with
  | .error msg => .error msg
  | .ok labelCalls =>
  match e.setEnv img opts.LayersDir opts.AppDir opts.DefaultProcessType
      buildMD.ToLaunchMD with
  | .error msg => .error msg
  | .ok envCalls =>
  match (if e.PlatformAPI.AtLeast ⟨0, 6⟩ then
           (match img.callErr (.setWorkingDir opts.AppDir) with
            | some msg => Except.error ("setting workdir: " ++ msg)
            | none => Except.ok [ImgCall.setWorkingDir opts.AppDir])
         else Except.ok ([] : List ImgCall)) with
  | .error msg => .error msg
  | .ok wdCalls =>
  match e.entrypoint buildMD.ToLaunchMD opts.DefaultProcessType
      buildMD.BuildpackDefaultProcessType with
  | .error msg => .error ("determining entrypoint: " ++ msg)
  | .ok ep =>
  match img.callErr (.setEntrypoint ep) with
  | some msg => .error ("setting entrypoint: " ++ msg)
  | none =>
  match img.callErr .setCmd with
  | some msg => .error ("setting cmd: " ++ msg)
  | none =>
  match e.makeBuildReport world.readBuildToml with
  | .error msg => .error msg
  | .ok build =>
  match world.saveResult with
  | .error msg => .error msg
  | .ok image0 =>
  .ok ({ Build := build,
         Image := if !e.supportsManifestSize then { image0 with ManifestSize := 0 }
                  else image0 },
       bpCalls ++ appCalls ++ launcherCalls ++ labelCalls ++ envCalls ++ wdCalls ++
         [ImgCall.setEntrypoint ep, ImgCall.setCmd])

/-! ## Spec-side descriptions (for the refinement claims C4 and C7) -/

/-- The add-vs-reuse decision for one materialized layer as spec §4.2
describes the LayerSelector: re-materialize through the factory, reuse on
digest equality, else add. -/
def specSelectorCall (f : LayerFactory) (layer : Layer) (previousDigest : String) :
    ImgCall :=
  let l2 := (f.DirLayer layer.ID layer.TarPath).toOption.getD layer
  if l2.Digest == previousDigest then .reuseLayer previousDigest
  else .addLayerWithDiffID l2.TarPath l2.Digest

/-- The spec's expected image calls for one launch layer of a buildpack
(spec §4.3): with contents, the selector decision on the materialized
layer; without contents, a reuse of the original digest. -/
def specBpLayerCall (f : LayerFactory) (orig : LayersMetadata) (bpID : String)
    (l : FsLayer) : List ImgCall :=
  if l.hasLocalContents then
    [specSelectorCall f ((f.DirLayer (layerIdent bpID l) l.path).toOption.getD default)
      ((((orig.MetadataForBuildpack bpID).Layers.lookup l.name).getD default).SHA)]
  else
    match (orig.MetadataForBuildpack bpID).Layers.lookup l.name with
    | some origMD => [.reuseLayer origMD.SHA]
    | none => []

/-- The expected layer-call sequence of a successful export, as the spec
states it (§8): buildpack launch layers in group order (filename sort
order within a buildpack), app slices in slice order, launcher, config,
then process-types when the platform API is at least 0.4 and at least one
process exists. -/
def specLayerCallSequence (e : Exporter) (world : ExportWorld)
    (opts : ExportOptions) : List ImgCall :=
  let buildMD := world.buildMD.toOption.getD ⟨[], [], "", []⟩
  (e.Buildpacks.flatMap (fun bp =>
    ((world.readBpDir bp.ID).toOption.getD ⟨[], ""⟩).findLaunchLayers.flatMap
      (specBpLayerCall e.LayerFactory opts.OrigMetadata bp.ID))) ++
  ((e.LayerFactory.SliceLayers opts.AppDir buildMD.Slices).toOption.getD []).map
    (fun slice =>
      if opts.OrigMetadata.App.any (fun prev => slice.Digest == prev.SHA)
      then ImgCall.reuseLayer slice.Digest
      else ImgCall.addLayerWithDiffID slice.TarPath slice.Digest) ++
  [specSelectorCall e.LayerFactory
     ((e.LayerFactory.LauncherLayer opts.LauncherConfigPath).toOption.getD default)
     opts.OrigMetadata.Launcher.SHA,
   specSelectorCall e.LayerFactory
     ((e.LayerFactory.DirLayer "config" (opts.LayersDir ++ "/config")).toOption.getD default)
     opts.OrigMetadata.Config.SHA] ++
  (if e.PlatformAPI.AtLeast ⟨0, 4⟩ && buildMD.Processes.length != 0 then
     [specSelectorCall e.LayerFactory
        ((e.LayerFactory.ProcessTypesLayer ⟨buildMD.Processes⟩).toOption.getD default)
        opts.OrigMetadata.ProcessTypes.SHA]
   else [])

/-- The entrypoint decision table exactly as the spec writes it (§4.7),
rows evaluated top to bottom. -/
def specEntrypointTable (api : APIVersion) (launchMD : LaunchMetadata)
    (userDefault bpDefault : String) : Except String String :=
  if api.LessThan ⟨0, 4⟩ then .ok LauncherPath
  else if userDefault != "" && (launchMD.FindProcessType userDefault).isSome then
    .ok (ProcessPath userDefault)
  else if userDefault != "" && api.LessThan ⟨0, 6⟩ then .ok LauncherPath
  else if userDefault != "" then
    .error ("tried to set " ++ userDefault ++ " to default but it does not exist")
  else if api.LessThan ⟨0, 6⟩ && launchMD.Processes.length == 1 then
    .ok (ProcessPath (launchMD.Processes.headD ⟨""⟩).typ)
  else if bpDefault != "" then .ok (ProcessPath bpDefault)
  else .ok LauncherPath

/-- Substring containment via `String.splitOn`: a nonempty pattern occurs
in `s` iff splitting on it yields more than one piece. -/
def strContains (s pat : String) : Bool := (s.splitOn pat).length != 1

/-- A concrete layer factory for running the model on closed inputs:
digests are derived from the layer identity. -/
def idFactory : LayerFactory :=
  { DirLayer := fun id dir => .ok ⟨id, dir ++ ".tar", "sha-" ++ id⟩
    LauncherLayer := fun path => .ok ⟨"launcher", path ++ ".tar", "sha-launcher"⟩
    ProcessTypesLayer := fun _ => .ok ⟨"process-types", "pt.tar", "sha-process-types"⟩
    SliceLayers := fun dir _ => .ok [⟨"app", dir ++ ".tar", "sha-app"⟩] }

/-- An image backend that accepts every call. -/
def okImage : WorkingImage :=
  { callErr := fun _ => none
    topLayer := .ok "sha-top"
    envPATH := .ok "/usr/bin" }

/-- A marshaller whose serializations always succeed. -/
def okMarshaller : Marshaller :=
  { layersMD := fun _ => .ok "layers-json"
    buildMD := fun _ => .ok "build-json"
    projectMD := fun p => .ok p }

/-- A concrete exporter: one buildpack, platform API 0.5. -/
def wExporter : Exporter := ⟨[⟨"bp1", "v1", ⟨0, 5⟩⟩], idFactory, ⟨0, 5⟩⟩

/-- A concrete launch layer with local contents. -/
def wLayer1 : FsLayer :=
  { name := "l1", launch := true, malformed := false, hasLocalContents := true,
    readErr := false, md := ⟨"", false, true, false⟩, path := "p1" }

/-- A concrete world: one process, one buildpack layer dir, all oracles
succeeding. -/
def wWorld : ExportWorld :=
  { absOk := true
    buildMD := .ok ⟨[⟨"web"⟩], [], "", []⟩
    readBpDir := fun _ => .ok ⟨[wLayer1], "st"⟩
    mar := okMarshaller
    readBuildToml := fun _ => .notExist
    saveResult := .ok ⟨77, "img1"⟩ }

/-- Concrete export options with an empty original image metadata. -/
def wOpts : ExportOptions :=
  { LayersDir := "ld", AppDir := "ad", RunImageRef := "run"
    OrigMetadata := ⟨[], [], ⟨""⟩, ⟨""⟩, ⟨""⟩, ⟨"", ""⟩, ""⟩
    LauncherConfigPath := "lp", Stack := "stk", Project := "prj"
    DefaultProcessType := "" }

end Lifecycle

/-! ### Helper lemmas -/

namespace Lifecycle

theorem Dir.lookup_insert_self (d : Dir) (k v : String) :
    (d.insert k v).lookup k = some v := by
  simp [Dir.insert, Dir.lookup]

theorem Dir.lookup_filter_ne (d : Dir) (k k2 : String) (h : k ≠ k2) :
    Dir.lookup (d.filter (fun p => p.1 ≠ k)) k2 = d.lookup k2 := by
  induction d with
  | nil => rfl
  | cons p rest ih =>
    by_cases hp : p.1 = k
    · simpa [List.filter_cons, hp, Dir.lookup, h] using ih
    · by_cases hk2 : p.1 = k2
      · simp [List.filter_cons, hp, Dir.lookup, hk2, Ne.symm h]
      · simpa [List.filter_cons, hp, Dir.lookup, hk2] using ih

theorem Dir.lookup_insert_ne (d : Dir) (k k2 v : String) (h : k ≠ k2) :
    (d.insert k v).lookup k2 = d.lookup k2 := by
  simp only [Dir.insert, Dir.lookup, h, if_false]
  exact Dir.lookup_filter_ne d k k2 h

theorem applyOp_uncommitted (w : Bool) (acc cd : Dir) (b : Option Dir) (op : CacheOp) :
    (applyOp w { committed := false,
                 fs := { stagingDir := some acc, committedDir := some cd, backupDir := b } } op).2
      = { committed := false,
          fs := { stagingDir := some (specStagedStep w cd acc op),
                  committedDir := some cd, backupDir := b } } := by
  cases op with
  | setMetadata enc => rfl
  | addLayerFile src d =>
    simp only [applyOp, VolumeCache.AddLayerFile, specStagedStep]
    cases hl : acc.lookup (diffIDPath w d) with
    | some v => simp [hl, VolumeCache.setStaging]
    | none => cases src <;> simp [hl, VolumeCache.setStaging]
  | addLayer content ok d => cases ok <;> rfl
  | reuseLayer d =>
    simp only [applyOp, VolumeCache.ReuseLayer, specStagedStep]
    cases hc : cd.lookup (diffIDPath w d) with
    | none => simp [hc, VolumeCache.setStaging]
    | some content =>
      cases hl : acc.lookup (diffIDPath w d) <;> simp [hc, hl, VolumeCache.setStaging]

theorem runOps_uncommitted (w : Bool) (ops : List CacheOp) :
    ∀ (acc cd : Dir) (b : Option Dir),
    runOps w { committed := false,
               fs := { stagingDir := some acc, committedDir := some cd, backupDir := b } } ops
      = { committed := false,
          fs := { stagingDir := some (specPlacedFiles w cd acc ops),
                  committedDir := some cd, backupDir := b } } := by
  induction ops with
  | nil => intro acc cd b; rfl
  | cons op rest ih =>
    intro acc cd b
    simp only [runOps, List.foldl_cons]
    rw [applyOp_uncommitted]
    simpa [runOps, specPlacedFiles] using ih (specStagedStep w cd acc op) cd b

/-- Frame property of the mutating operations: whatever branch is taken,
the committed flag, `committed/` and `committed-backup/` are untouched. -/
theorem applyOp_frame (w : Bool) (c : VolumeCache) (op : CacheOp) :
    (applyOp w c op).2.fs.committedDir = c.fs.committedDir ∧
    (applyOp w c op).2.fs.backupDir = c.fs.backupDir ∧
    (applyOp w c op).2.committed = c.committed := by
  obtain ⟨cf, st, cd, b⟩ := c
  cases op <;>
    simp only [applyOp, VolumeCache.SetMetadata, VolumeCache.AddLayerFile,
      VolumeCache.AddLayer, VolumeCache.ReuseLayer, VolumeCache.setStaging] <;>
    (repeat' split) <;> simp

/-! ### Claim theorems: volume cache -/

/-- C1: for every `VolumeCache` session in which `Commit()` returns
success, `staging/` no longer exists, `committed/` contains exactly the
set of files successfully placed in staging during the session (prior
committed layers not reused are discarded), and every subsequent `Commit()`
on the instance fails with `ErrCacheCommitted`. -/
theorem C1_commit_promotes_staging (w : Bool) (init : CacheFS) (ops : List CacheOp)
    (c0 : VolumeCache) (h0 : NewVolumeCache true init = .ok c0) :
    (runOps w c0 ops |>.Commit false false).1 = .ok () ∧
    (runOps w c0 ops |>.Commit false false).2.fs.stagingDir = none ∧
    (runOps w c0 ops |>.Commit false false).2.fs.committedDir
      = some (specPlacedFiles w (init.committedDir.getD []) [] ops) ∧
    (runOps w c0 ops |>.Commit false false).2.fs.backupDir = none ∧
    (∀ f1 f2 : Bool,
      ((runOps w c0 ops |>.Commit false false).2.Commit f1 f2).1
        = .error CacheErr.cacheCommitted) := by
  have hc0 : c0 = { committed := false,
                    fs := { stagingDir := some [],
                            committedDir := some (init.committedDir.getD []),
                            backupDir := none } } := by
    simpa [NewVolumeCache] using h0.symm
  subst hc0
  rw [runOps_uncommitted]
  refine ⟨rfl, rfl, rfl, rfl, fun f1 f2 => rfl⟩

/-- C1 witness: a concrete session (one added layer file, one reused
layer, a metadata write) on a cache with one prior committed layer. -/
theorem C1_commit_promotes_staging_witness :
    (runOps false
        { committed := false,
          fs := { stagingDir := some [], committedDir := some [("a.tar", "A")],
                  backupDir := none } }
        [CacheOp.addLayerFile (some "B") "b", CacheOp.reuseLayer "a",
         CacheOp.setMetadata "md"]
      |>.Commit false false).2.fs.committedDir
      = some (specPlacedFiles false [("a.tar", "A")] []
          [CacheOp.addLayerFile (some "B") "b", CacheOp.reuseLayer "a",
           CacheOp.setMetadata "md"]) :=
  (C1_commit_promotes_staging false
    { stagingDir := some [], committedDir := some [("a.tar", "A")], backupDir := none }
    [CacheOp.addLayerFile (some "B") "b", CacheOp.reuseLayer "a",
     CacheOp.setMetadata "md"] _ rfl).2.2.1

/-- C2 counterexample: the claim says that when the rollback rename fails
the backup directory still exists, to be observed by the next
construction.  It does not: the deferred `os.RemoveAll(c.backupDir)`
registered after the first rename also runs on the rollback-failure
return path and removes the backup.  Concretely, committing a cache whose
staging rename and rollback rename both fail reports the rollback error
but leaves no `committed-backup/`. -/
theorem C2_counterexample :
    ((VolumeCache.Commit
        { committed := false,
          fs := { stagingDir := some [("b.tar", "B")],
                  committedDir := some [("a.tar", "A")], backupDir := none } }
        true true).1 = .error (.ioErr "rolling back cache")) ∧
    ((VolumeCache.Commit
        { committed := false,
          fs := { stagingDir := some [("b.tar", "B")],
                  committedDir := some [("a.tar", "A")], backupDir := none } }
        true true).2.fs.backupDir = none) := ⟨rfl, rfl⟩

/-- C2 (amended): during `Commit()`, if the rename of `staging/` to
`committed/` fails, the cache attempts to rename `committed-backup/` back
to `committed/`; if that rollback succeeds the reported error is the
original staging-rename failure; if the rollback itself fails the rollback
error is reported and `committed/` is gone — but in both failure cases the
deferred cleanup removes `committed-backup/`, so no backup directory
survives for the next construction to observe. -/
theorem C2_commit_rollback (c : VolumeCache) (cd : Dir)
    (h1 : c.committed = false) (h2 : c.fs.committedDir = some cd) :
    ((c.Commit true false).1 = .error (.ioErr "committing cache") ∧
     (c.Commit true false).2.fs.committedDir = some cd ∧
     (c.Commit true false).2.fs.backupDir = none) ∧
    ((c.Commit true true).1 = .error (.ioErr "rolling back cache") ∧
     (c.Commit true true).2.fs.committedDir = none ∧
     (c.Commit true true).2.fs.backupDir = none) := by
  obtain ⟨cf, st, cdir, b⟩ := c
  simp only at h1 h2
  subst h1 h2
  cases st <;> simp [VolumeCache.Commit]

/-- C2 witness: the amended behaviour at a concrete cache state. -/
theorem C2_commit_rollback_witness :
    ((VolumeCache.Commit
        { committed := false,
          fs := { stagingDir := some [("b.tar", "B")],
                  committedDir := some [("a.tar", "A")], backupDir := none } }
        true false).1 = .error (.ioErr "committing cache") ∧
     (VolumeCache.Commit
        { committed := false,
          fs := { stagingDir := some [("b.tar", "B")],
                  committedDir := some [("a.tar", "A")], backupDir := none } }
        true false).2.fs.committedDir = some [("a.tar", "A")] ∧
     (VolumeCache.Commit
        { committed := false,
          fs := { stagingDir := some [("b.tar", "B")],
                  committedDir := some [("a.tar", "A")], backupDir := none } }
        true false).2.fs.backupDir = none) :=
  (C2_commit_rollback
    { committed := false,
      fs := { stagingDir := some [("b.tar", "B")],
              committedDir := some [("a.tar", "A")], backupDir := none } }
    [("a.tar", "A")] rfl rfl).1

/-- C3: once `Commit()` has been invoked (even if it returned an error)
the committed flag is set; with the flag set every mutating operation
returns `ErrCacheCommitted` and leaves the cache unchanged; before commit
the mutating operations write only into `staging/`. -/
theorem C3_mutation_contract (w : Bool) (c : VolumeCache) (enc : String)
    (src : Option String) (content : String) (ok : Bool) (d : String) :
    (∀ f1 f2 : Bool, (c.Commit f1 f2).2.committed = true) ∧
    (c.committed = true →
       c.SetMetadata enc = (.error .cacheCommitted, c) ∧
       c.AddLayerFile w src d = (.error .cacheCommitted, c) ∧
       c.AddLayer w content ok d = (.error .cacheCommitted, c) ∧
       c.ReuseLayer w d = (.error .cacheCommitted, c) ∧
       (∀ f1 f2 : Bool, c.Commit f1 f2 = (.error .cacheCommitted, c))) ∧
    (c.committed = false →
       ((c.SetMetadata enc).2.fs.committedDir = c.fs.committedDir ∧
        (c.SetMetadata enc).2.fs.backupDir = c.fs.backupDir) ∧
       ((c.AddLayerFile w src d).2.fs.committedDir = c.fs.committedDir ∧
        (c.AddLayerFile w src d).2.fs.backupDir = c.fs.backupDir) ∧
       ((c.AddLayer w content ok d).2.fs.committedDir = c.fs.committedDir ∧
        (c.AddLayer w content ok d).2.fs.backupDir = c.fs.backupDir) ∧
       ((c.ReuseLayer w d).2.fs.committedDir = c.fs.committedDir ∧
        (c.ReuseLayer w d).2.fs.backupDir = c.fs.backupDir)) := by
  refine ⟨?_, ?_, ?_⟩
  · intro f1 f2
    obtain ⟨cf, st, cdir, b⟩ := c
    cases cf <;> simp only [VolumeCache.Commit] <;> (repeat' split) <;> simp_all
  · intro h
    obtain ⟨cf, st, cdir, b⟩ := c
    simp only at h
    subst h
    exact ⟨rfl, rfl, rfl, rfl, fun f1 f2 => rfl⟩
  · intro h
    have h1 := applyOp_frame w c (.setMetadata enc)
    have h2 := applyOp_frame w c (.addLayerFile src d)
    have h3 := applyOp_frame w c (.addLayer content ok d)
    have h4 := applyOp_frame w c (.reuseLayer d)
    simp only [applyOp] at h1 h2 h3 h4
    exact ⟨⟨h1.1, h1.2.1⟩, ⟨h2.1, h2.2.1⟩, ⟨h3.1, h3.2.1⟩, ⟨h4.1, h4.2.1⟩⟩

/-- C3 witness: a committed instance rejects the mutations; an
uncommitted one touches neither `committed/` nor the backup. -/
theorem C3_mutation_contract_witness :
    VolumeCache.SetMetadata
      { committed := true,
        fs := { stagingDir := some [], committedDir := some [], backupDir := none } } "m"
      = (.error .cacheCommitted,
         { committed := true,
           fs := { stagingDir := some [], committedDir := some [], backupDir := none } }) :=
  ((C3_mutation_contract false
      { committed := true,
        fs := { stagingDir := some [], committedDir := some [], backupDir := none } }
      "m" none "c" true "d").2.1 rfl).1

/-- C8: `RetrieveMetadata` returns the empty record with no error when the
committed metadata file is absent or fails to decode; with no injected
open error the result is always `ok`; a non-`IsNotExist` open error is the
only way an error surfaces. -/
theorem C8_retrieve_metadata (c : VolumeCache) (dec : String → Option String) :
    (c.fs.committedDir.bind (fun cd => cd.lookup MetadataLabel) = none →
       c.RetrieveMetadata false dec = .ok "") ∧
    (∀ content, c.fs.committedDir.bind (fun cd => cd.lookup MetadataLabel) = some content →
       dec content = none → c.RetrieveMetadata false dec = .ok "") ∧
    (∀ content m, c.fs.committedDir.bind (fun cd => cd.lookup MetadataLabel) = some content →
       dec content = some m → c.RetrieveMetadata false dec = .ok m) ∧
    (∃ m, c.RetrieveMetadata false dec = .ok m) ∧
    (c.RetrieveMetadata true dec = .error (.ioErr "opening metadata file")) := by
  obtain ⟨cf, st, cdir, b⟩ := c
  cases cdir with
  | none => exact ⟨fun _ => rfl, by simp, by simp, ⟨"", rfl⟩, rfl⟩
  | some cd =>
    refine ⟨?_, ?_, ?_, ?_, rfl⟩
    · intro h
      simp only [Option.bind] at h
      simp [VolumeCache.RetrieveMetadata, h]
    · intro content h hd
      simp only [Option.bind] at h
      simp [VolumeCache.RetrieveMetadata, h, hd]
    · intro content m h hd
      simp only [Option.bind] at h
      simp [VolumeCache.RetrieveMetadata, h, hd]
    · simp only [VolumeCache.RetrieveMetadata]
      cases h : cd.lookup MetadataLabel with
      | none => exact ⟨"", by simp [h]⟩
      | some content =>
        cases hd : dec content with
        | none => exact ⟨"", by simp [h, hd]⟩
        | some m => exact ⟨m, by simp [h, hd]⟩

/-- C8 witness: a metadata file that fails to decode yields the empty
record with no error. -/
theorem C8_retrieve_metadata_witness :
    VolumeCache.RetrieveMetadata
      { committed := false,
        fs := { stagingDir := some [],
                committedDir := some [(MetadataLabel, "not-json")], backupDir := none } }
      false (fun _ => none) = .ok "" :=
  (C8_retrieve_metadata
    { committed := false,
      fs := { stagingDir := some [],
              committedDir := some [(MetadataLabel, "not-json")], backupDir := none } }
    (fun _ => none)).2.1 "not-json" rfl rfl

/-- C9: in one uncommitted session, adding the same digest twice with
`AddLayerFile` leaves exactly the first add in staging and the second call
is an accepted no-op; linking the same digest twice with `ReuseLayer`
succeeds, the second call having no effect. -/
theorem C9_idempotent_add_reuse (w : Bool) (c : VolumeCache) (st cd : Dir)
    (src1 src2 lc : String) (d : String)
    (h1 : c.committed = false) (h2 : c.fs.stagingDir = some st)
    (h3 : st.lookup (diffIDPath w d) = none)
    (h4 : c.fs.committedDir = some cd)
    (h5 : cd.lookup (diffIDPath w d) = some lc) :
    ((c.AddLayerFile w (some src1) d).1 = .ok () ∧
     (c.AddLayerFile w (some src1) d).2.fs.stagingDir
       = some (st.insert (diffIDPath w d) src1) ∧
     (c.AddLayerFile w (some src1) d).2.AddLayerFile w (some src2) d
       = (.ok (), (c.AddLayerFile w (some src1) d).2)) ∧
    ((c.ReuseLayer w d).1 = .ok () ∧
     (c.ReuseLayer w d).2.ReuseLayer w d = (.ok (), (c.ReuseLayer w d).2)) := by
  obtain ⟨cf, stg, cdir, b⟩ := c
  simp only at h1 h2 h4
  subst h1 h2 h4
  constructor
  · simp [VolumeCache.AddLayerFile, h3, VolumeCache.setStaging,
      Dir.lookup_insert_self]
  · simp [VolumeCache.ReuseLayer, h3, h5, VolumeCache.setStaging,
      Dir.lookup_insert_self]

/-- C9 witness: the idempotence at a concrete cache state. -/
theorem C9_idempotent_add_reuse_witness :
    (VolumeCache.AddLayerFile
        { committed := false,
          fs := { stagingDir := some [], committedDir := some [("d.tar", "L")],
                  backupDir := none } } false (some "X") "d").2.fs.stagingDir
      = some (Dir.insert [] (diffIDPath false "d") "X") :=
  ((C9_idempotent_add_reuse false
      { committed := false,
        fs := { stagingDir := some [], committedDir := some [("d.tar", "L")],
                backupDir := none } }
      [] [("d.tar", "L")] "X" "Y" "L" "d" rfl rfl rfl rfl rfl).1).2.1

/-- C10: a failed `AddLayer` stream copy leaves the partial file in
staging; a same-digest `AddLayerFile` afterwards is accepted without
copying (existence is all it checks); a later `Commit` promotes the
partial file into `committed/`. -/
theorem C10_partial_file_promoted (w : Bool) (c : VolumeCache) (st cd : Dir)
    (frag other : String) (d : String)
    (h1 : c.committed = false) (h2 : c.fs.stagingDir = some st)
    (h4 : c.fs.committedDir = some cd) :
    (c.AddLayer w frag false d).1 = .error (.ioErr "copying layer to tar file") ∧
    (c.AddLayer w frag false d).2.fs.stagingDir
      = some (st.insert (diffIDPath w d) frag) ∧
    ((c.AddLayer w frag false d).2.AddLayerFile w (some other) d
      = (.ok (), (c.AddLayer w frag false d).2)) ∧
    ((c.AddLayer w frag false d).2.Commit false false).1 = .ok () ∧
    (((c.AddLayer w frag false d).2.Commit false false).2.fs.committedDir.map
        (fun d2 => d2.lookup (diffIDPath w d))) = some (some frag) := by
  obtain ⟨cf, stg, cdir, b⟩ := c
  simp only at h1 h2 h4
  subst h1 h2 h4
  refine ⟨rfl, rfl, ?_, rfl, ?_⟩
  · simp [VolumeCache.AddLayer, VolumeCache.AddLayerFile, VolumeCache.setStaging,
      Dir.lookup_insert_self]
  · simp [VolumeCache.AddLayer, VolumeCache.Commit, VolumeCache.setStaging,
      Dir.lookup_insert_self]

/-- C10 witness: the partial-file scenario at a concrete cache state. -/
theorem C10_partial_file_promoted_witness :
    (((VolumeCache.AddLayer
          { committed := false,
            fs := { stagingDir := some [], committedDir := some [], backupDir := none } }
          false "par" false "d").2.Commit false false).2.fs.committedDir.map
        (fun d2 => d2.lookup (diffIDPath false "d"))) = some (some "par") :=
  (C10_partial_file_promoted false
    { committed := false,
      fs := { stagingDir := some [], committedDir := some [], backupDir := none } }
    [] [] "par" "other" "d" rfl rfl rfl).2.2.2.2

/-! ### Claim theorems: exporter -/

theorem findProcessType_typ (launchMD : LaunchMetadata) (k : String) (p : Process)
    (h : launchMD.FindProcessType k = some p) : p.typ = k := by
  have h3 : launchMD.Processes.find? (fun q => q.typ == k) = some p := h
  have h4 := List.find?_some h3
  exact eq_of_beq (by simpa using h4)

/-- C7: the entrypoint computation equals the spec's decision table —
platform API below 0.4 gives the launcher; a found user default gives its
process path; a missing user default warns and falls back below 0.6 but
fails from 0.6; with no user default, below 0.6 a sole process is chosen;
else a buildpack default; else the launcher. -/
theorem C7_entrypoint_table (e : Exporter) (launchMD : LaunchMetadata)
    (userDefault bpDefault : String) :
    e.entrypoint launchMD userDefault bpDefault
      = specEntrypointTable e.PlatformAPI launchMD userDefault bpDefault := by
  by_cases h04 : e.PlatformAPI.AtLeast ⟨0, 4⟩ = true
  case neg =>
    rw [Bool.not_eq_true] at h04
    simp [Exporter.entrypoint, specEntrypointTable, Exporter.supportsMulticallLauncher,
      APIVersion.LessThan, h04]
  case pos =>
    by_cases hu : userDefault = ""
    · subst hu
      by_cases h06 : e.PlatformAPI.AtLeast ⟨0, 6⟩ = true
      · simp [Exporter.entrypoint, specEntrypointTable, Exporter.supportsMulticallLauncher,
          APIVersion.LessThan, h04, h06]
      · rw [Bool.not_eq_true] at h06
        by_cases hlen : launchMD.Processes.length = 1 <;>
          simp [Exporter.entrypoint, specEntrypointTable, Exporter.supportsMulticallLauncher,
            APIVersion.LessThan, h04, h06, hlen]
    · cases hf : launchMD.FindProcessType userDefault with
      | some p =>
        have hteq : p.typ = userDefault := findProcessType_typ launchMD userDefault p hf
        simp [Exporter.entrypoint, specEntrypointTable, Exporter.supportsMulticallLauncher,
          APIVersion.LessThan, h04, hu, hf, hteq]
      | none =>
        by_cases h06 : e.PlatformAPI.AtLeast ⟨0, 6⟩ = true <;>
          [skip; rw [Bool.not_eq_true] at h06] <;>
          simp [Exporter.entrypoint, specEntrypointTable, Exporter.supportsMulticallLauncher,
            APIVersion.LessThan, h04, hu, hf, h06]

/-- C5: `addOrReuseLayer` reuses exactly when the re-materialized digest
equals the previous digest (string equality), returning the previous
digest; otherwise it adds the new layer and returns its digest; an empty
previous digest forces the add branch for any real (nonempty) digest. -/
theorem C5_add_or_reuse (e : Exporter) (img : WorkingImage) (layer l2 : Layer)
    (previousSHA : String)
    (hf : e.LayerFactory.DirLayer layer.ID layer.TarPath = .ok l2)
    (hre : img.callErr (.reuseLayer previousSHA) = none)
    (hadd : img.callErr (.addLayerWithDiffID l2.TarPath l2.Digest) = none) :
    (l2.Digest = previousSHA →
       e.addOrReuseLayer img layer previousSHA
         = .ok (previousSHA, [.reuseLayer previousSHA])) ∧
    (l2.Digest ≠ previousSHA →
       e.addOrReuseLayer img layer previousSHA
         = .ok (l2.Digest, [.addLayerWithDiffID l2.TarPath l2.Digest])) ∧
    (previousSHA = "" → l2.Digest ≠ "" →
       e.addOrReuseLayer img layer previousSHA
         = .ok (l2.Digest, [.addLayerWithDiffID l2.TarPath l2.Digest])) := by
  refine ⟨?_, ?_, ?_⟩
  · intro h
    simp [Exporter.addOrReuseLayer, hf, h, hre]
  · intro h
    simp [Exporter.addOrReuseLayer, hf, h, hadd]
  · intro h1 h2
    subst h1
    simp [Exporter.addOrReuseLayer, hf, h2, hadd]

/-- C5 witness: an empty previous digest at a concrete layer takes the
add branch. -/
theorem C5_add_or_reuse_witness :
    Exporter.addOrReuseLayer
      { Buildpacks := [], LayerFactory := idFactory, PlatformAPI := ⟨0, 5⟩ }
      okImage ⟨"id1", "dir1", "sha256:x"⟩ ""
      = .ok ("sha-id1", [.addLayerWithDiffID "dir1.tar" "sha-id1"]) := by
  exact (C5_add_or_reuse
    { Buildpacks := [], LayerFactory := idFactory, PlatformAPI := ⟨0, 5⟩ }
    okImage ⟨"id1", "dir1", "sha256:x"⟩ ⟨"id1", "dir1.tar", "sha-id1"⟩ ""
    rfl rfl rfl).2.2 rfl (by decide)

/-- C6: a launch-classified layer with no local contents directory fails
with the cache=true message when its metadata says cache, fails with the
cannot-reuse message when the original image metadata lacks an entry for
it, and otherwise reuses the original digest and records it. -/
theorem C6_no_contents_layer (e : Exporter) (img : WorkingImage)
    (orig : LayersMetadata) (bp : GroupBuildpack) (l : FsLayer)
    (hnc : l.hasLocalContents = false) (hre : l.readErr = false) :
    (l.md.Cache = true →
       e.processLaunchLayer img orig bp l
         = .error ("layer " ++ layerIdent bp.ID l ++
             " is cache=true but has no contents")) ∧
    (l.md.Cache = false →
       (orig.MetadataForBuildpack bp.ID).Layers.lookup l.name = none →
       e.processLaunchLayer img orig bp l
         = .error ("cannot reuse " ++ layerIdent bp.ID l ++
             ", previous image has no metadata for layer " ++ layerIdent bp.ID l)) ∧
    (∀ origMD, l.md.Cache = false →
       (orig.MetadataForBuildpack bp.ID).Layers.lookup l.name = some origMD →
       img.callErr (.reuseLayer origMD.SHA) = none →
       e.processLaunchLayer img orig bp l
         = .ok ({ l.md with SHA := origMD.SHA }, [.reuseLayer origMD.SHA])) := by
  refine ⟨?_, ?_, ?_⟩
  · intro hc
    simp [Exporter.processLaunchLayer, hnc, hre, hc]
  · intro hc hl
    simp [Exporter.processLaunchLayer, hnc, hre, hc, hl]
  · intro origMD hc hl himg
    simp [Exporter.processLaunchLayer, hnc, hre, hc, hl, himg]

/-- C6 witness: a cache=true layer without contents fails with the
cache=true message (and that message contains the claimed fragment). -/
theorem C6_no_contents_layer_witness :
    Exporter.processLaunchLayer
      { Buildpacks := [], LayerFactory := idFactory, PlatformAPI := ⟨0, 5⟩ }
      okImage
      { Buildpacks := [], App := [], Launcher := ⟨""⟩, Config := ⟨""⟩,
        ProcessTypes := ⟨""⟩, RunImage := ⟨"", ""⟩, Stack := "" }
      ⟨"bp1", "v1", ⟨0, 5⟩⟩
      { name := "l1", launch := true, malformed := false, hasLocalContents := false,
        readErr := false, md := ⟨"", true, true, false⟩, path := "p" }
      = .error ("layer " ++ layerIdent "bp1"
          { name := "l1", launch := true, malformed := false, hasLocalContents := false,
            readErr := false, md := ⟨"", true, true, false⟩, path := "p" } ++
          " is cache=true but has no contents") :=
  (C6_no_contents_layer
    { Buildpacks := [], LayerFactory := idFactory, PlatformAPI := ⟨0, 5⟩ }
    okImage
    { Buildpacks := [], App := [], Launcher := ⟨""⟩, Config := ⟨""⟩,
      ProcessTypes := ⟨""⟩, RunImage := ⟨"", ""⟩, Stack := "" }
    ⟨"bp1", "v1", ⟨0, 5⟩⟩
    { name := "l1", launch := true, malformed := false, hasLocalContents := false,
      readErr := false, md := ⟨"", true, true, false⟩, path := "p" }
    rfl rfl).1 rfl

/-! ### Call-sequence lemmas for the export stages -/

theorem addOrReuseLayer_calls (e : Exporter) (img : WorkingImage) (layer : Layer)
    (prev sha : String) (calls : List ImgCall)
    (h : e.addOrReuseLayer img layer prev = .ok (sha, calls)) :
    calls = [specSelectorCall e.LayerFactory layer prev] := by
  cases hf : e.LayerFactory.DirLayer layer.ID layer.TarPath with
  | error msg => simp [Exporter.addOrReuseLayer, hf] at h
  | ok l2 =>
    simp only [Exporter.addOrReuseLayer, hf] at h
    simp only [specSelectorCall, hf, Except.toOption, Option.getD]
    by_cases hd : (l2.Digest == prev) = true
    · simp only [hd, if_true] at h ⊢
      cases hc : img.callErr (.reuseLayer prev) with
      | some m => simp [hc] at h
      | none => simp [hc] at h; exact h.2.symm
    · rw [Bool.not_eq_true] at hd
      simp only [hd, Bool.false_eq_true, if_false] at h ⊢
      cases hc : img.callErr (.addLayerWithDiffID l2.TarPath l2.Digest) with
      | some m => simp [hc] at h
      | none => simp [hc] at h; exact h.2.symm

theorem processLaunchLayer_calls (e : Exporter) (img : WorkingImage)
    (orig : LayersMetadata) (bp : GroupBuildpack) (l : FsLayer)
    (lmd : BuildpackLayerMetadata) (calls : List ImgCall)
    (h : e.processLaunchLayer img orig bp l = .ok (lmd, calls)) :
    calls = specBpLayerCall e.LayerFactory orig bp.ID l := by
  by_cases hr : l.readErr = true
  · simp [Exporter.processLaunchLayer, hr] at h
  · rw [Bool.not_eq_true] at hr
    by_cases hc : l.hasLocalContents = true
    · simp only [Exporter.processLaunchLayer, hr, hc, Bool.false_eq_true,
        if_false, if_true] at h
      cases hf : e.LayerFactory.DirLayer (layerIdent bp.ID l) l.path with
      | error msg => simp [hf] at h
      | ok layer =>
        simp only [hf] at h
        cases ha : e.addOrReuseLayer img layer
            ((((orig.MetadataForBuildpack bp.ID).Layers.lookup l.name).getD
                default).SHA) with
        | error msg => simp [ha] at h
        | ok pr =>
          obtain ⟨sha2, calls2⟩ := pr
          simp only [ha] at h
          simp only [Except.ok.injEq, Prod.mk.injEq] at h
          rw [← h.2]
          rw [addOrReuseLayer_calls e img layer _ sha2 calls2 ha]
          simp [specBpLayerCall, hc, hf, Except.toOption, Option.getD]
    · rw [Bool.not_eq_true] at hc
      by_cases hm : l.md.Cache = true
      · simp [Exporter.processLaunchLayer, hr, hc, hm] at h
      · rw [Bool.not_eq_true] at hm
        simp only [Exporter.processLaunchLayer, hr, hc, hm, Bool.false_eq_true,
          if_false] at h
        cases hl : (orig.MetadataForBuildpack bp.ID).Layers.lookup l.name with
        | none => simp [hl] at h
        | some origMD =>
          simp only [hl] at h
          cases hcall : img.callErr (.reuseLayer origMD.SHA) with
          | some m => simp [hcall] at h
          | none =>
            simp only [hcall] at h
            simp only [Except.ok.injEq, Prod.mk.injEq] at h
            rw [← h.2]
            simp [specBpLayerCall, hc, hl]

theorem processLaunchLayers_calls (e : Exporter) (img : WorkingImage)
    (orig : LayersMetadata) (bp : GroupBuildpack) :
    ∀ (ls : List FsLayer) (entries : List (String × BuildpackLayerMetadata))
      (calls : List ImgCall),
    e.processLaunchLayers img orig bp ls = .ok (entries, calls) →
    calls = ls.flatMap (specBpLayerCall e.LayerFactory orig bp.ID) := by
  intro ls
  induction ls with
  | nil =>
    intro entries calls h
    simp only [Exporter.processLaunchLayers, Except.ok.injEq, Prod.mk.injEq] at h
    rw [← h.2]
    simp
  | cons l rest ih =>
    intro entries calls h
    simp only [Exporter.processLaunchLayers] at h
    cases h1 : e.processLaunchLayer img orig bp l with
    | error m => simp [h1] at h
    | ok pr1 =>
      obtain ⟨lmd, calls1⟩ := pr1
      simp only [h1] at h
      cases h2 : e.processLaunchLayers img orig bp rest with
      | error m => simp [h2] at h
      | ok pr2 =>
        obtain ⟨entries2, calls2⟩ := pr2
        simp only [h2] at h
        simp only [Except.ok.injEq, Prod.mk.injEq] at h
        rw [← h.2]
        rw [processLaunchLayer_calls e img orig bp l lmd calls1 h1, ih _ _ h2]
        simp

theorem addBuildpackLayers_calls (e : Exporter) (img : WorkingImage)
    (readBpDir : String → Except String BpLayersDir) (orig : LayersMetadata) :
    ∀ (bps : List GroupBuildpack) (mds : List BuildpackLayersMetadata)
      (calls : List ImgCall),
    e.addBuildpackLayers img readBpDir orig bps = .ok (mds, calls) →
    calls = bps.flatMap (fun bp =>
      ((readBpDir bp.ID).toOption.getD ⟨[], ""⟩).findLaunchLayers.flatMap
        (specBpLayerCall e.LayerFactory orig bp.ID)) := by
  intro bps
  induction bps with
  | nil =>
    intro mds calls h
    simp only [Exporter.addBuildpackLayers, Except.ok.injEq, Prod.mk.injEq] at h
    rw [← h.2]
    simp
  | cons bp rest ih =>
    intro mds calls h
    simp only [Exporter.addBuildpackLayers] at h
    cases hd : readBpDir bp.ID with
    | error m => simp [hd] at h
    | ok bpDir =>
      simp only [hd] at h
      cases h1 : e.processLaunchLayers img orig bp bpDir.findLaunchLayers with
      | error m => simp [h1] at h
      | ok pr1 =>
        obtain ⟨entries, calls1⟩ := pr1
        simp only [h1] at h
        by_cases hmal : bpDir.findMalformedLayers.isEmpty = true
        · rw [if_pos hmal] at h
          cases h2 : e.addBuildpackLayers img readBpDir orig rest with
          | error m => simp [h2] at h
          | ok pr2 =>
            obtain ⟨mds2, calls2⟩ := pr2
            simp only [h2] at h
            simp only [Except.ok.injEq, Prod.mk.injEq] at h
            rw [← h.2]
            rw [processLaunchLayers_calls e img orig bp _ _ _ h1, ih _ _ h2]
            simp [hd, Except.toOption, Option.getD]
        · rw [if_neg hmal] at h
          simp at h

theorem appSliceLoop_calls (img : WorkingImage) (origApp : List LayerMetadata) :
    ∀ (sliceLayers : List Layer) (metas : List LayerMetadata) (calls : List ImgCall),
    appSliceLoop img origApp sliceLayers = .ok (metas, calls) →
    calls = sliceLayers.map (fun slice =>
      if origApp.any (fun prev => slice.Digest == prev.SHA)
      then ImgCall.reuseLayer slice.Digest
      else ImgCall.addLayerWithDiffID slice.TarPath slice.Digest) := by
  intro sliceLayers
  induction sliceLayers with
  | nil =>
    intro metas calls h
    simp only [appSliceLoop, Except.ok.injEq, Prod.mk.injEq] at h
    rw [← h.2]
    simp
  | cons slice rest ih =>
    intro metas calls h
    simp only [appSliceLoop] at h
    cases hc : img.callErr (if origApp.any (fun previous => slice.Digest == previous.SHA)
        then ImgCall.reuseLayer slice.Digest
        else ImgCall.addLayerWithDiffID slice.TarPath slice.Digest) with
    | some m =>
      simp only [hc] at h
      simp at h
    | none =>
      simp only [hc] at h
      cases h2 : appSliceLoop img origApp rest with
      | error m =>
        simp only [h2] at h
        simp at h
      | ok pr2 =>
        obtain ⟨metas2, calls2⟩ := pr2
        simp only [h2] at h
        simp only [Except.ok.injEq, Prod.mk.injEq] at h
        rw [← h.2]
        rw [ih _ _ h2]
        simp

theorem addAppLayers_calls (e : Exporter) (img : WorkingImage) (appDir : String)
    (slices : List Slice) (origApp : List LayerMetadata)
    (metas : List LayerMetadata) (calls : List ImgCall)
    (h : e.addAppLayers img appDir slices origApp = .ok (metas, calls)) :
    calls = ((e.LayerFactory.SliceLayers appDir slices).toOption.getD []).map
      (fun slice =>
        if origApp.any (fun prev => slice.Digest == prev.SHA)
        then ImgCall.reuseLayer slice.Digest
        else ImgCall.addLayerWithDiffID slice.TarPath slice.Digest) := by
  cases hs : e.LayerFactory.SliceLayers appDir slices with
  | error m => simp [Exporter.addAppLayers, hs] at h
  | ok sliceLayers =>
    simp only [Exporter.addAppLayers, hs] at h
    rw [appSliceLoop_calls img origApp sliceLayers metas calls h]
    simp [Except.toOption, Option.getD]

theorem launcherConfig_calls (e : Exporter) (img : WorkingImage)
    (buildMD : BuildMetadata) (origSHA sha : String) (calls : List ImgCall)
    (h : e.launcherConfig img buildMD origSHA = .ok (sha, calls)) :
    calls = (if e.PlatformAPI.AtLeast ⟨0, 4⟩ && buildMD.Processes.length != 0 then
               [specSelectorCall e.LayerFactory
                  ((e.LayerFactory.ProcessTypesLayer ⟨buildMD.Processes⟩).toOption.getD
                    default)
                  origSHA]
             else []) := by
  by_cases h04 : e.PlatformAPI.AtLeast ⟨0, 4⟩ = true
  · by_cases hlen : (buildMD.Processes.length != 0) = true
    · simp only [Exporter.launcherConfig, Exporter.supportsMulticallLauncher,
        h04, hlen, if_true, Bool.true_and] at h ⊢
      cases hp : e.LayerFactory.ProcessTypesLayer ⟨buildMD.Processes⟩ with
      | error m => simp [hp] at h
      | ok ptLayer =>
        simp only [hp] at h
        cases ha : e.addOrReuseLayer img ptLayer origSHA with
        | error m => simp [ha] at h
        | ok pr =>
          obtain ⟨sha2, calls2⟩ := pr
          simp only [ha] at h
          simp only [Except.ok.injEq, Prod.mk.injEq] at h
          rw [← h.2]
          rw [addOrReuseLayer_calls e img ptLayer origSHA sha2 calls2 ha]
          simp [hp, Except.toOption, Option.getD]
    · rw [Bool.not_eq_true] at hlen
      simp only [Exporter.launcherConfig, Exporter.supportsMulticallLauncher,
        h04, hlen, if_true, Bool.true_and, Bool.false_eq_true, if_false] at h ⊢
      simp only [Except.ok.injEq, Prod.mk.injEq] at h
      exact h.2.symm
  · rw [Bool.not_eq_true] at h04
    simp only [Exporter.launcherConfig, Exporter.supportsMulticallLauncher,
      h04, Bool.false_eq_true, if_false, Bool.false_and] at h ⊢
    simp only [Except.ok.injEq, Prod.mk.injEq] at h
    exact h.2.symm

theorem addLauncherLayers_calls (e : Exporter) (img : WorkingImage)
    (launcherConfigPath layersDir : String) (buildMD : BuildMetadata)
    (orig : LayersMetadata) (shas : String × String × String) (calls : List ImgCall)
    (h : e.addLauncherLayers img launcherConfigPath layersDir buildMD orig
           = .ok (shas, calls)) :
    calls = [specSelectorCall e.LayerFactory
               ((e.LayerFactory.LauncherLayer launcherConfigPath).toOption.getD default)
               orig.Launcher.SHA,
             specSelectorCall e.LayerFactory
               ((e.LayerFactory.DirLayer "config" (layersDir ++ "/config")).toOption.getD
                 default)
               orig.Config.SHA] ++
            (if e.PlatformAPI.AtLeast ⟨0, 4⟩ && buildMD.Processes.length != 0 then
               [specSelectorCall e.LayerFactory
                  ((e.LayerFactory.ProcessTypesLayer ⟨buildMD.Processes⟩).toOption.getD
                    default)
                  orig.ProcessTypes.SHA]
             else []) := by
  cases hl : e.LayerFactory.LauncherLayer launcherConfigPath with
  | error m => simp [Exporter.addLauncherLayers, hl] at h
  | ok launcherLayer =>
    simp only [Exporter.addLauncherLayers, hl] at h
    cases ha1 : e.addOrReuseLayer img launcherLayer orig.Launcher.SHA with
    | error m => simp [ha1] at h
    | ok pr1 =>
      obtain ⟨sha1, calls1⟩ := pr1
      simp only [ha1] at h
      cases hcfg : e.LayerFactory.DirLayer "config" (layersDir ++ "/config") with
      | error m => simp [hcfg] at h
      | ok configLayer =>
        simp only [hcfg] at h
        cases ha2 : e.addOrReuseLayer img configLayer orig.Config.SHA with
        | error m => simp [ha2] at h
        | ok pr2 =>
          obtain ⟨sha2, calls2⟩ := pr2
          simp only [ha2] at h
          cases ha3 : e.launcherConfig img buildMD orig.ProcessTypes.SHA with
          | error m => simp [ha3] at h
          | ok pr3 =>
            obtain ⟨sha3, calls3⟩ := pr3
            simp only [ha3] at h
            simp only [Except.ok.injEq, Prod.mk.injEq] at h
            rw [← h.2]
            rw [addOrReuseLayer_calls e img launcherLayer _ sha1 calls1 ha1,
               addOrReuseLayer_calls e img configLayer _ sha2 calls2 ha2,
               launcherConfig_calls e img buildMD _ sha3 calls3 ha3]
            simp [hl, hcfg, Except.toOption, Option.getD]

/-! ### The non-layer stages issue no layer calls -/

theorem setLabelCall_ok (img : WorkingImage) (k v : String) (calls : List ImgCall)
    (h : setLabelCall img k v = .ok calls) : calls = [ImgCall.setLabel k v] := by
  unfold setLabelCall at h
  cases hc : img.callErr (.setLabel k v) with
  | some m => simp [hc] at h
  | none => simp only [hc, Except.ok.injEq] at h; exact h.symm

theorem setEnvCall_ok (img : WorkingImage) (k v : String) (calls : List ImgCall)
    (h : setEnvCall img k v = .ok calls) : calls = [ImgCall.setEnv k v] := by
  unfold setEnvCall at h
  cases hc : img.callErr (.setEnv k v) with
  | some m => simp [hc] at h
  | none => simp only [hc, Except.ok.injEq] at h; exact h.symm

theorem setBuildpackLabels_not_layer (img : WorkingImage) :
    ∀ (ls : List (String × String)) (calls : List ImgCall),
    setBuildpackLabels img ls = .ok calls → ∀ a ∈ calls, isLayerCall a = false := by
  intro ls
  induction ls with
  | nil =>
    intro calls h a ha
    simp only [setBuildpackLabels, Except.ok.injEq] at h
    rw [← h] at ha
    simp at ha
  | cons p rest ih =>
    obtain ⟨k, v⟩ := p
    intro calls h a ha
    simp only [setBuildpackLabels] at h
    cases hc : setLabelCall img k v with
    | error m => simp only [hc] at h; simp at h
    | ok c1 =>
      simp only [hc] at h
      cases h2 : setBuildpackLabels img rest with
      | error m => simp only [h2] at h; simp at h
      | ok c2 =>
        simp only [h2, Except.ok.injEq] at h
        rw [← h] at ha
        rcases List.mem_append.mp ha with h3 | h3
        · rw [setLabelCall_ok img k v c1 hc] at h3
          simp at h3
          rw [h3]; rfl
        · exact ih _ h2 a h3

theorem setLabels_not_layer (e : Exporter) (img : WorkingImage) (mar : Marshaller)
    (meta : LayersMetadata) (buildMD : BuildMetadata) (projectMD : String)
    (calls : List ImgCall)
    (h : e.setLabels img mar meta buildMD projectMD = .ok calls) :
    ∀ a ∈ calls, isLayerCall a = false := by
  unfold Exporter.setLabels at h
  cases h1 : mar.layersMD meta with
  | error m => simp only [h1] at h; simp at h
  | ok data =>
  simp only [h1] at h
  cases h2 : setLabelCall img LayerMetadataLabel data with
  | error m => simp only [h2] at h; simp at h
  | ok c1 =>
  simp only [h2] at h
  cases h3 : mar.buildMD buildMD with
  | error m => simp only [h3] at h; simp at h
  | ok buildJSON =>
  simp only [h3] at h
  cases h4 : setLabelCall img BuildMetadataLabel buildJSON with
  | error m => simp only [h4] at h; simp at h
  | ok c2 =>
  simp only [h4] at h
  cases h5 : mar.projectMD projectMD with
  | error m => simp only [h5] at h; simp at h
  | ok projectJSON =>
  simp only [h5] at h
  cases h6 : setLabelCall img ProjectMetadataLabel projectJSON with
  | error m => simp only [h6] at h; simp at h
  | ok c3 =>
  simp only [h6] at h
  cases h7 : setBuildpackLabels img buildMD.Labels with
  | error m => simp only [h7] at h; simp at h
  | ok c4 =>
  simp only [h7, Except.ok.injEq] at h
  intro a ha
  rw [← h] at ha
  rcases List.mem_append.mp ha with hx | hx
  · rcases List.mem_append.mp hx with hy | hy
    · rcases List.mem_append.mp hy with hz | hz
      · rw [setLabelCall_ok img _ _ c1 h2] at hz
        simp at hz; rw [hz]; rfl
      · rw [setLabelCall_ok img _ _ c2 h4] at hz
        simp at hz; rw [hz]; rfl
    · rw [setLabelCall_ok img _ _ c3 h6] at hy
      simp at hy; rw [hy]; rfl
  · exact setBuildpackLabels_not_layer img _ c4 h7 a hx

theorem setEnv_not_layer (e : Exporter) (img : WorkingImage)
    (layersDir appDir defaultProcessType : String) (launchMD : LaunchMetadata)
    (calls : List ImgCall)
    (h : e.setEnv img layersDir appDir defaultProcessType launchMD = .ok calls) :
    ∀ a ∈ calls, isLayerCall a = false := by
  unfold Exporter.setEnv at h
  cases h1 : setEnvCall img EnvLayersDir layersDir with
  | error m => simp only [h1] at h; simp at h
  | ok c1 =>
  simp only [h1] at h
  cases h2 : setEnvCall img EnvAppDir appDir with
  | error m => simp only [h2] at h; simp at h
  | ok c2 =>
  simp only [h2] at h
  cases h3 : setEnvCall img EnvPlatformAPI e.PlatformAPI.str with
  | error m => simp only [h3] at h; simp at h
  | ok c3 =>
  simp only [h3] at h
  cases h4 : setEnvCall img EnvDeprecationMode DeprecationModeQuiet with
  | error m => simp only [h4] at h; simp at h
  | ok c4 =>
  simp only [h4] at h
  by_cases hmc : e.supportsMulticallLauncher = true
  · simp only [hmc, if_true] at h
    cases h5 : img.envPATH with
    | error m => simp only [h5] at h; simp at h
    | ok path =>
    simp only [h5] at h
    cases h6 : setEnvCall img "PATH" (ProcessDir ++ ":" ++ LifecycleDir ++ ":" ++ path) with
    | error m => simp only [h6] at h; simp at h
    | ok c5 =>
    simp only [h6, Except.ok.injEq] at h
    intro a ha
    rw [← h] at ha
    rcases List.mem_append.mp ha with hx | hx
    · rcases List.mem_append.mp hx with hy | hy
      · rcases List.mem_append.mp hy with hz | hz
        · rcases List.mem_append.mp hz with hw | hw
          · rw [setEnvCall_ok img _ _ c1 h1] at hw; simp at hw; rw [hw]; rfl
          · rw [setEnvCall_ok img _ _ c2 h2] at hw; simp at hw; rw [hw]; rfl
        · rw [setEnvCall_ok img _ _ c3 h3] at hz; simp at hz; rw [hz]; rfl
      · rw [setEnvCall_ok img _ _ c4 h4] at hy; simp at hy; rw [hy]; rfl
    · rw [setEnvCall_ok img _ _ c5 h6] at hx; simp at hx; rw [hx]; rfl
  · rw [Bool.not_eq_true] at hmc
    simp only [hmc, Bool.false_eq_true, if_false] at h
    by_cases hdp : (defaultProcessType != "") = true
    · simp only [hdp, if_true] at h
      cases h5 : launchMD.FindProcessType defaultProcessType with
      | none => simp only [h5] at h; simp at h
      | some p =>
      simp only [h5] at h
      cases h6 : setEnvCall img EnvProcessType defaultProcessType with
      | error m => simp only [h6] at h; simp at h
      | ok c5 =>
      simp only [h6, Except.ok.injEq] at h
      intro a ha
      rw [← h] at ha
      rcases List.mem_append.mp ha with hx | hx
      · rcases List.mem_append.mp hx with hy | hy
        · rcases List.mem_append.mp hy with hz | hz
          · rcases List.mem_append.mp hz with hw | hw
            · rw [setEnvCall_ok img _ _ c1 h1] at hw; simp at hw; rw [hw]; rfl
            · rw [setEnvCall_ok img _ _ c2 h2] at hw; simp at hw; rw [hw]; rfl
          · rw [setEnvCall_ok img _ _ c3 h3] at hz; simp at hz; rw [hz]; rfl
        · rw [setEnvCall_ok img _ _ c4 h4] at hy; simp at hy; rw [hy]; rfl
      · rw [setEnvCall_ok img _ _ c5 h6] at hx; simp at hx; rw [hx]; rfl
    · rw [Bool.not_eq_true] at hdp
      simp only [hdp, Bool.false_eq_true, if_false, Except.ok.injEq] at h
      intro a ha
      rw [← h] at ha
      rcases List.mem_append.mp ha with hx | hx
      · rcases List.mem_append.mp hx with hy | hy
        · rcases List.mem_append.mp hy with hz | hz
          · rw [setEnvCall_ok img _ _ c1 h1] at hz; simp at hz; rw [hz]; rfl
          · rw [setEnvCall_ok img _ _ c2 h2] at hz; simp at hz; rw [hz]; rfl
        · rw [setEnvCall_ok img _ _ c3 h3] at hy; simp at hy; rw [hy]; rfl
      · rw [setEnvCall_ok img _ _ c4 h4] at hx; simp at hx; rw [hx]; rfl

theorem wdCalls_not_layer (e : Exporter) (img : WorkingImage) (p : String)
    (wdCalls : List ImgCall)
    (h : (if e.PlatformAPI.AtLeast ⟨0, 6⟩ then
            (match img.callErr (.setWorkingDir p) with
             | some msg => Except.error ("setting workdir: " ++ msg)
             | none => Except.ok [ImgCall.setWorkingDir p])
          else Except.ok ([] : List ImgCall)) = .ok wdCalls) :
    ∀ a ∈ wdCalls, isLayerCall a = false := by
  by_cases h06 : e.PlatformAPI.AtLeast ⟨0, 6⟩ = true
  · simp only [h06, if_true] at h
    cases hc : img.callErr (.setWorkingDir p) with
    | some m => simp only [hc] at h; simp at h
    | none =>
      simp only [hc, Except.ok.injEq] at h
      intro a ha
      rw [← h] at ha
      simp at ha
      rw [ha]; rfl
  · rw [Bool.not_eq_true] at h06
    simp only [h06, Bool.false_eq_true, if_false, Except.ok.injEq] at h
    intro a ha
    rw [← h] at ha
    simp at ha

/-! ### Every spec-side layer call is a layer call -/

theorem isLayerCall_specSelectorCall (f : LayerFactory) (layer : Layer)
    (prev : String) : isLayerCall (specSelectorCall f layer prev) = true := by
  simp only [specSelectorCall]
  split <;> rfl

theorem isLayerCall_of_mem_specBpLayerCall (f : LayerFactory) (orig : LayersMetadata)
    (bpID : String) (l : FsLayer) (a : ImgCall)
    (ha : a ∈ specBpLayerCall f orig bpID l) : isLayerCall a = true := by
  revert ha
  unfold specBpLayerCall
  by_cases hc : l.hasLocalContents = true
  · simp only [hc, if_true, List.mem_singleton]
    intro ha
    rw [ha]
    exact isLayerCall_specSelectorCall _ _ _
  · rw [Bool.not_eq_true] at hc
    simp only [hc, Bool.false_eq_true, if_false]
    cases (orig.MetadataForBuildpack bpID).Layers.lookup l.name with
    | none => intro ha; simp at ha
    | some origMD =>
      simp only [List.mem_singleton]
      intro ha
      rw [ha]; rfl

theorem filter_bpCalls (f : LayerFactory) (orig : LayersMetadata)
    (readFn : String → Except String BpLayersDir) (bps : List GroupBuildpack) :
    (bps.flatMap (fun bp =>
      ((readFn bp.ID).toOption.getD ⟨[], ""⟩).findLaunchLayers.flatMap
        (specBpLayerCall f orig bp.ID))).filter isLayerCall
      = bps.flatMap (fun bp =>
          ((readFn bp.ID).toOption.getD ⟨[], ""⟩).findLaunchLayers.flatMap
            (specBpLayerCall f orig bp.ID)) := by
  apply List.filter_eq_self.mpr
  intro a ha
  obtain ⟨bp, _, ha2⟩ := List.mem_flatMap.mp ha
  obtain ⟨l, _, ha3⟩ := List.mem_flatMap.mp ha2
  exact isLayerCall_of_mem_specBpLayerCall f orig bp.ID l a ha3

theorem filter_appCalls (origApp : List LayerMetadata) (sliceLayers : List Layer) :
    (sliceLayers.map (fun slice =>
      if origApp.any (fun prev => slice.Digest == prev.SHA)
      then ImgCall.reuseLayer slice.Digest
      else ImgCall.addLayerWithDiffID slice.TarPath slice.Digest)).filter isLayerCall
      = sliceLayers.map (fun slice =>
          if origApp.any (fun prev => slice.Digest == prev.SHA)
          then ImgCall.reuseLayer slice.Digest
          else ImgCall.addLayerWithDiffID slice.TarPath slice.Digest) := by
  apply List.filter_eq_self.mpr
  intro a ha
  obtain ⟨slice, _, ha2⟩ := List.mem_map.mp ha
  rw [← ha2]
  split <;> rfl

theorem filter_ptCalls (f : LayerFactory) (cond : Bool) (layer : Layer) (prev : String) :
    ((if cond then [specSelectorCall f layer prev] else []).filter isLayerCall)
      = (if cond then [specSelectorCall f layer prev] else []) := by
  cases cond with
  | false => rfl
  | true => simp [List.filter, isLayerCall_specSelectorCall]

theorem filter_eq_nil_of_forall (l : List ImgCall)
    (h : ∀ a ∈ l, isLayerCall a = false) : l.filter isLayerCall = [] := by
  induction l with
  | nil => rfl
  | cons x xs ih =>
    have hx := h x (List.mem_cons_self x xs)
    rw [List.filter_cons, if_neg (by simp [hx])]
    exact ih (fun a ha => h a (List.mem_cons_of_mem x ha))

theorem filter_pair_sel (f : LayerFactory) (l1 l2 : Layer) (p1 p2 : String) :
    ([specSelectorCall f l1 p1, specSelectorCall f l2 p2]).filter isLayerCall
      = [specSelectorCall f l1 p1, specSelectorCall f l2 p2] := by
  simp [List.filter_cons, isLayerCall_specSelectorCall]

/-- C4: for every successful export, the sequence of
AddLayerWithDiffID/ReuseLayer calls issued to the working image is:
buildpack launch layers in buildpack group order, then app slice layers
in slice order, then the launcher layer, then the config layer, then the
process-types layer — the last only when the platform API is at least 0.4
and at least one process exists. -/
theorem C4_layer_call_sequence (e : Exporter) (img : WorkingImage)
    (world : ExportWorld) (opts : ExportOptions) (rep : ExportReport)
    (log : List ImgCall)
    (h : e.Export img world opts = .ok (rep, log)) :
    log.filter isLayerCall = specLayerCallSequence e world opts := by
  unfold Exporter.Export at h
  by_cases habs : world.absOk = true
  case neg =>
    rw [Bool.not_eq_true] at habs
    simp [habs] at h
  rw [if_neg (show ¬((!world.absOk) = true) by simp [habs])] at h
  cases htop : img.topLayer with
  | error m => simp only [htop] at h; simp at h
  | ok top =>
  simp only [htop] at h
  cases hbmd : world.buildMD with
  | error m => simp only [hbmd] at h; simp at h
  | ok buildMD =>
  simp only [hbmd] at h
  cases hbp : e.addBuildpackLayers img world.readBpDir opts.OrigMetadata e.Buildpacks with
  | error m => simp only [hbp] at h; simp at h
  | ok prBp =>
  obtain ⟨bpsMD, bpCalls⟩ := prBp
  simp only [hbp] at h
  cases happ : e.addAppLayers img opts.AppDir buildMD.Slices opts.OrigMetadata.App with
  | error m => simp only [happ] at h; simp at h
  | ok prApp =>
  obtain ⟨appMD, appCalls⟩ := prApp
  simp only [happ] at h
  cases hln : e.addLauncherLayers img opts.LauncherConfigPath opts.LayersDir buildMD
      opts.OrigMetadata with
  | error m => simp only [hln] at h; simp at h
  | ok prLn =>
  obtain ⟨⟨launcherSHA, configSHA, ptSHA⟩, launcherCalls⟩ := prLn
  simp only [hln] at h
  cases hlb : e.setLabels img world.mar
      { Buildpacks := bpsMD, App := appMD, Launcher := ⟨launcherSHA⟩,
        Config := ⟨configSHA⟩, ProcessTypes := ⟨ptSHA⟩,
        RunImage := ⟨top, opts.RunImageRef⟩, Stack := opts.Stack }
      buildMD opts.Project with
  | error m => simp only [hlb] at h; simp at h
  | ok labelCalls =>
  simp only [hlb] at h
  cases henv : e.setEnv img opts.LayersDir opts.AppDir opts.DefaultProcessType
      buildMD.ToLaunchMD with
  | error m => simp only [henv] at h; simp at h
  | ok envCalls =>
  simp only [henv] at h
  cases hwd : (if e.PlatformAPI.AtLeast ⟨0, 6⟩ then
           (match img.callErr (.setWorkingDir opts.AppDir) with
            | some msg => Except.error ("setting workdir: " ++ msg)
            | none => Except.ok [ImgCall.setWorkingDir opts.AppDir])
         else Except.ok ([] : List ImgCall)) with
  | error m => simp only [hwd] at h; simp at h
  | ok wdCalls =>
  simp only [hwd] at h
  cases hep : e.entrypoint buildMD.ToLaunchMD opts.DefaultProcessType
      buildMD.BuildpackDefaultProcessType with
  | error m => simp only [hep] at h; simp at h
  | ok ep =>
  simp only [hep] at h
  cases hsetep : img.callErr (.setEntrypoint ep) with
  | some m => simp only [hsetep] at h; simp at h
  | none =>
  simp only [hsetep] at h
  cases hcmd : img.callErr .setCmd with
  | some m => simp only [hcmd] at h; simp at h
  | none =>
  simp only [hcmd] at h
  cases hbrep : e.makeBuildReport world.readBuildToml with
  | error m => simp only [hbrep] at h; simp at h
  | ok build =>
  simp only [hbrep] at h
  cases hsave : world.saveResult with
  | error m => simp only [hsave] at h; simp at h
  | ok image0 =>
  simp only [hsave, Except.ok.injEq, Prod.mk.injEq] at h
  rw [← h.2]
  simp only [List.filter_append]
  rw [addBuildpackLayers_calls e img world.readBpDir opts.OrigMetadata
    e.Buildpacks bpsMD bpCalls hbp]
  rw [addAppLayers_calls e img opts.AppDir buildMD.Slices opts.OrigMetadata.App
    appMD appCalls happ]
  rw [addLauncherLayers_calls e img opts.LauncherConfigPath opts.LayersDir buildMD
    opts.OrigMetadata _ launcherCalls hln]
  rw [filter_bpCalls, filter_appCalls]
  rw [filter_eq_nil_of_forall labelCalls
    (setLabels_not_layer e img world.mar _ buildMD opts.Project labelCalls hlb)]
  rw [filter_eq_nil_of_forall envCalls
    (setEnv_not_layer e img opts.LayersDir opts.AppDir opts.DefaultProcessType
      buildMD.ToLaunchMD envCalls henv)]
  rw [filter_eq_nil_of_forall wdCalls
    (wdCalls_not_layer e img opts.AppDir wdCalls hwd)]
  simp only [List.filter_append, filter_pair_sel, filter_ptCalls]
  rw [filter_eq_nil_of_forall [ImgCall.setEntrypoint ep, ImgCall.setCmd]
    (by intro a ha
        simp at ha
        rcases ha with hx | hx <;> rw [hx] <;> rfl)]
  unfold specLayerCallSequence
  simp only [hbmd, Except.toOption, Option.getD]
  simp [List.append_assoc]

/-- C4 witness: a concrete successful export (one buildpack with one
contents-bearing launch layer, one app slice, platform API 0.5, one
process); the filtered call log equals the spec's expected sequence. -/
theorem C4_layer_call_sequence_witness :
    (Exporter.Export wExporter okImage wWorld wOpts).map
        (fun pr => pr.2.filter isLayerCall)
      = .ok (specLayerCallSequence wExporter wWorld wOpts) := by
  have h : Exporter.Export wExporter okImage wWorld wOpts
      = .ok ({ Build := ⟨[]⟩, Image := ⟨0, "img1"⟩ },
             [ImgCall.addLayerWithDiffID "p1.tar.tar" "sha-bp1:l1",
              ImgCall.addLayerWithDiffID "ad.tar" "sha-app",
              ImgCall.addLayerWithDiffID "lp.tar.tar" "sha-launcher",
              ImgCall.addLayerWithDiffID "ld/config.tar.tar" "sha-config",
              ImgCall.addLayerWithDiffID "pt.tar.tar" "sha-process-types",
              ImgCall.setLabel "io.buildpacks.lifecycle.metadata" "layers-json",
              ImgCall.setLabel "io.buildpacks.build.metadata" "build-json",
              ImgCall.setLabel "io.buildpacks.project.metadata" "prj",
              ImgCall.setEnv "CNB_LAYERS_DIR" "ld",
              ImgCall.setEnv "CNB_APP_DIR" "ad",
              ImgCall.setEnv "CNB_PLATFORM_API" "0.5",
              ImgCall.setEnv "CNB_DEPRECATION_MODE" "quiet",
              ImgCall.setEnv "PATH" "/cnb/process:/cnb/lifecycle:/usr/bin",
              ImgCall.setEntrypoint "/cnb/process/web",
              ImgCall.setCmd]) := rfl
  rw [h]
  exact congrArg Except.ok (C4_layer_call_sequence wExporter okImage wWorld wOpts _ _ h)

end Lifecycle
